import Mathlib

/-!
Verification of the LDT/HL7-style message ingestion and parsing pipeline.

The definitions below are a shallow embedding of the Python sources:
  backend/compliance/ldt_processor.py  (fixed-field LDT decoder and assembler)
  backend/results/models.py            (segment decoder, message state machine)
  backend/results/views.py             (workflow triggering)
  backend/results/tasks.py             (asynchronous task wrapper with retries)

Strings are modelled with Lean `String` (a list of unicode code points, matching
Python's `str`); Python string slicing, `strip`, `split` and membership tests
are modelled by the `py*` helpers proved about below.  Database tables are
modelled as Lean lists of records; `datetime.now()` readings are threaded as
explicit parameters.
-/

set_option maxRecDepth 8192

/-- Python `s[a:b]` for non-negative bounds: indices clamp to the string length
and an empty string results when `a ≥ b`. -/
def pySlice (s : String) (a b : Nat) : String :=
  String.mk ((s.data.drop a).take (b - a))

/-- Removal of trailing whitespace characters (the tail half of `str.strip`). -/
def dropTrail : List Char → List Char
  | [] => []
  | c :: cs =>
    let t := dropTrail cs
    if t = [] ∧ c.isWhitespace then [] else c :: t

/-- Python `s.strip()` on the character list. -/
def stripList (l : List Char) : List Char :=
  dropTrail (l.dropWhile Char.isWhitespace)

/-- Python `s.strip()`. -/
def pyStrip (s : String) : String :=
  String.mk (stripList s.data)

/-- Splitting of a character list at every occurrence of `sep`
(Python `str.split(sep)`: separators are not collapsed, an empty input
yields one empty part). -/
def splitListOn (sep : Char) : List Char → List (List Char)
  | [] => [[]]
  | c :: cs =>
    if c = sep then [] :: splitListOn sep cs
    else match splitListOn sep cs with
      | [] => [[c]]
      | p :: ps => (c :: p) :: ps

/-- Python `s.split(sep)` for a one-character separator. -/
def pySplitOn (sep : Char) (s : String) : List String :=
  (splitListOn sep s.data).map String.mk

/-- Python `s.split('\n')`. -/
def pySplitNL (s : String) : List String :=
  pySplitOn '\n' s

/-- Substring search on character lists (Python `needle in hay`). -/
def containsSub (needle : List Char) : List Char → Bool
  | [] => needle.isEmpty
  | c :: t => needle.isPrefixOf (c :: t) || containsSub needle t

/-- Python `pat in s`. -/
def pyContains (s pat : String) : Bool :=
  containsSub pat.data s.data

example : pySlice "01PATIENT001X" 2 12 = "PATIENT001" := by decide
example : pyStrip "  DOE  " = "DOE" := by decide
example : pySplitOn '|' "OBX|1||x" = ["OBX", "1", "", "x"] := by decide
example : pySplitNL "" = [""] := by decide
example : pyContains "MSH|PID" "PID" = true := by decide
example : pyContains "MSH|PI" "PID" = false := by decide

/-! ### Model of `datetime.strptime` for the formats `%d%m%Y` and `%H%M%S`

CPython's `_strptime` compiles a format into a regex; `%d` matches
`3[01]|[12]\d|0[1-9]|[1-9]`, `%m` matches `1[0-2]|0[1-9]|[1-9]`,
`%Y` matches exactly four digits, `%H` matches `2[0-3]|[0-1]\d|\d`,
`%M` matches `[0-5]\d|\d` and `%S` matches `6[01]|[0-5]\d|\d`.
The regex engine tries alternatives in order with backtracking and then
`strptime` raises `ValueError` when unconverted data remains or the
resulting calendar values are rejected by the `datetime` constructor.
The candidate lists below enumerate the alternatives in regex order and
`firstSome` realises the backtracking search. -/

/-- Numeric value of a digit character. -/
def digVal (c : Char) : Nat := c.toNat - 48

/-- First successful continuation over a candidate list (regex backtracking). -/
def firstSome (l : List α) (f : α → Option β) : Option β :=
  match l with
  | [] => none
  | a :: as =>
    match f a with
    | some b => some b
    | none => firstSome as f

/-- Two-digit alternatives of `%d` (`3[01]`, `[12]\d`, `0[1-9]`), in regex order.
The alternatives are disjoint on the first character, so a single match suffices. -/
def day2 (c1 c2 : Char) : Option Nat :=
  match c1, c2 with
  | '3', '0' => some 30
  | '3', '1' => some 31
  | '1', d => if d.isDigit then some (10 + digVal d) else none
  | '2', d => if d.isDigit then some (20 + digVal d) else none
  | '0', d => if d.isDigit && d != '0' then some (digVal d) else none
  | _, _ => none

/-- One-digit alternative of `%d` (`[1-9]`). -/
def day1 (c : Char) : Option Nat :=
  if c.isDigit && c != '0' then some (digVal c) else none

/-- Candidate (value, rest) pairs of `%d` in regex preference order. -/
def dayCands : List Char → List (Nat × List Char)
  | c1 :: c2 :: rest =>
    ((day2 c1 c2).toList.map fun d => (d, rest))
      ++ ((day1 c1).toList.map fun d => (d, c2 :: rest))
  | [c1] => (day1 c1).toList.map fun d => (d, [])
  | [] => []

/-- Two-digit alternatives of `%m` (`1[0-2]`, `0[1-9]`), in regex order. -/
def month2 (c1 c2 : Char) : Option Nat :=
  match c1, c2 with
  | '1', '0' => some 10
  | '1', '1' => some 11
  | '1', '2' => some 12
  | '0', d => if d.isDigit && d != '0' then some (digVal d) else none
  | _, _ => none

/-- One-digit alternative of `%m` (`[1-9]`). -/
def month1 (c : Char) : Option Nat :=
  if c.isDigit && c != '0' then some (digVal c) else none

/-- Candidate (value, rest) pairs of `%m` in regex preference order. -/
def monthCands : List Char → List (Nat × List Char)
  | c1 :: c2 :: rest =>
    ((month2 c1 c2).toList.map fun m => (m, rest))
      ++ ((month1 c1).toList.map fun m => (m, c2 :: rest))
  | [c1] => (month1 c1).toList.map fun m => (m, [])
  | [] => []

/-- `%Y`: exactly four digits. -/
def take4Digits : List Char → Option (Nat × List Char)
  | a :: b :: c :: d :: rest =>
    if a.isDigit && b.isDigit && c.isDigit && d.isDigit then
      some (1000 * digVal a + 100 * digVal b + 10 * digVal c + digVal d, rest)
    else none
  | _ => none

/-- Regex match of `%d%m%Y` from the start of the input: the first successful
(day, month, year) split in backtracking order, together with the unconsumed
remainder. -/
def matchDMY (l : List Char) : Option (Nat × Nat × Nat × List Char) :=
  firstSome (dayCands l) fun dc =>
    firstSome (monthCands dc.2) fun mc =>
      (take4Digits mc.2).map fun yc => (dc.1, mc.1, yc.1, yc.2)

/-- Whether `y` is a Gregorian leap year (Python `calendar.isleap`). -/
def isLeap (y : Nat) : Bool :=
  y % 4 == 0 && (y % 100 != 0 || y % 400 == 0)

/-- Days in month `m` of year `y` (Python `calendar.monthrange`). -/
def daysInMonth (y m : Nat) : Nat :=
  if m = 2 then (if isLeap y then 29 else 28)
  else if m = 4 ∨ m = 6 ∨ m = 9 ∨ m = 11 then 30
  else 31

/-- `datetime.strptime(s, "%d%m%Y")`: regex match from the start, then failure
when unconverted data remains or `datetime(year, month, day)` rejects the
values (`year ≥ 1`, day within the month; the regex already bounds
`1 ≤ day ≤ 31` and `1 ≤ month ≤ 12`). -/
def strptimeDMY (s : String) : Option (Nat × Nat × Nat) :=
  match matchDMY s.data with
  | none => none
  | some (d, m, y, rest) =>
    if rest = [] ∧ 1 ≤ y ∧ d ≤ daysInMonth y m then some (d, m, y) else none

/-- Zero-padded two-digit decimal rendering (for values below 100). -/
def pad2Chars (n : Nat) : List Char :=
  [Nat.digitChar (n / 10), Nat.digitChar (n % 10)]

/-- Zero-padded four-digit decimal rendering (for values below 10000). -/
def pad4Chars (n : Nat) : List Char :=
  [Nat.digitChar (n / 1000), Nat.digitChar (n / 100 % 10),
   Nat.digitChar (n / 10 % 10), Nat.digitChar (n % 10)]

/-- `date_obj.strftime("%Y-%m-%d")` (zero-padded fields). -/
def isoDate (y m d : Nat) : String :=
  String.mk (pad4Chars y ++ '-' :: pad2Chars m ++ '-' :: pad2Chars d)

/-- `LDTProcessor._parse_date`: `None` for an empty string or the all-zero
placeholder, otherwise `strptime` with `%d%m%Y` reformatted as ISO
`YYYY-MM-DD`, with `None` on any parse failure. -/
def parse_date (s : String) : Option String :=
  if s = "" ∨ pyStrip s = "00000000" then none
  else
    match strptimeDMY (pyStrip s) with
    | none => none
    | some (d, m, y) => some (isoDate y m d)

/-- Two-digit alternatives of `%H` (`2[0-3]`, `[01]\d`), in regex order. -/
def hour2 (c1 c2 : Char) : Option Nat :=
  match c1, c2 with
  | '2', d => if d = '0' ∨ d = '1' ∨ d = '2' ∨ d = '3' then some (20 + digVal d) else none
  | '0', d => if d.isDigit then some (digVal d) else none
  | '1', d => if d.isDigit then some (10 + digVal d) else none
  | _, _ => none

/-- One-digit alternative of `%H`/`%M`/`%S` (`\d`). -/
def num1 (c : Char) : Option Nat :=
  if c.isDigit then some (digVal c) else none

/-- Candidate (value, rest) pairs of `%H` in regex preference order. -/
def hourCands : List Char → List (Nat × List Char)
  | c1 :: c2 :: rest =>
    ((hour2 c1 c2).toList.map fun h => (h, rest))
      ++ ((num1 c1).toList.map fun h => (h, c2 :: rest))
  | [c1] => (num1 c1).toList.map fun h => (h, [])
  | [] => []

/-- Two-digit alternative of `%M` (`[0-5]\d`). -/
def min2 (c1 c2 : Char) : Option Nat :=
  if c1.isDigit && digVal c1 ≤ 5 && c2.isDigit then some (10 * digVal c1 + digVal c2)
  else none

/-- Candidate (value, rest) pairs of `%M` in regex preference order. -/
def minCands : List Char → List (Nat × List Char)
  | c1 :: c2 :: rest =>
    ((min2 c1 c2).toList.map fun m => (m, rest))
      ++ ((num1 c1).toList.map fun m => (m, c2 :: rest))
  | [c1] => (num1 c1).toList.map fun m => (m, [])
  | [] => []

/-- Two-digit alternatives of `%S` (`6[01]`, `[0-5]\d`), in regex order. -/
def sec2 (c1 c2 : Char) : Option Nat :=
  match c1, c2 with
  | '6', '0' => some 60
  | '6', '1' => some 61
  | c1, c2 =>
    if c1.isDigit && digVal c1 ≤ 5 && c2.isDigit then some (10 * digVal c1 + digVal c2)
    else none

/-- Candidate (value, rest) pairs of `%S` in regex preference order. -/
def secCands : List Char → List (Nat × List Char)
  | c1 :: c2 :: rest =>
    ((sec2 c1 c2).toList.map fun s => (s, rest))
      ++ ((num1 c1).toList.map fun s => (s, c2 :: rest))
  | [c1] => (num1 c1).toList.map fun s => (s, [])
  | [] => []

/-- Regex match of `%H%M%S` from the start of the input. -/
def matchHMS (l : List Char) : Option (Nat × Nat × Nat × List Char) :=
  firstSome (hourCands l) fun hc =>
    firstSome (minCands hc.2) fun mc =>
      firstSome (secCands mc.2) fun sc => some (hc.1, mc.1, sc.1, sc.2)

/-- `datetime.strptime(s, "%H%M%S")`: the `datetime` constructor additionally
rejects a seconds value of 60 or 61. -/
def strptimeHMS (s : String) : Option (Nat × Nat × Nat) :=
  match matchHMS s.data with
  | none => none
  | some (h, m, sec, rest) =>
    if rest = [] ∧ sec ≤ 59 then some (h, m, sec) else none

/-- `time_obj.strftime("%H:%M:%S")`. -/
def hmsFormat (h m s : Nat) : String :=
  String.mk (pad2Chars h ++ ':' :: pad2Chars m ++ ':' :: pad2Chars s)

/-- `LDTProcessor._parse_time`: `None` for an empty string or the all-zero
placeholder, otherwise `strptime` with `%H%M%S` reformatted as `HH:MM:SS`. -/
def parse_time (s : String) : Option String :=
  if s = "" ∨ pyStrip s = "000000" then none
  else
    match strptimeHMS (pyStrip s) with
    | none => none
    | some (h, m, sec) => some (hmsFormat h m sec)

example : parse_date "00000000" = none := by decide
example : parse_date "01011980" = some "1980-01-01" := by decide
example : parse_date "31022020" = none := by decide
example : parse_date "29022020" = some "2020-02-29" := by decide
example : parse_date "1011980" = some "1980-01-10" := by decide
example : parse_date "XX011980" = none := by decide
example : parse_time "120000" = some "12:00:00" := by decide
example : parse_time "000000" = none := by decide

/-! ### Fixed-field record decoder (`LDTProcessor._parse_*_record`) -/

/-- Decoded patient record (type 01), `LDTProcessor._parse_patient_record`. -/
structure PatientRecord where
  id : String
  last_name : String
  first_name : String
  birth_date : Option String
  gender : String
  insurance_number : String
  insurance_type : String
  record_type : String
deriving DecidableEq

/-- Decoded order record (type 02), `LDTProcessor._parse_order_record`. -/
structure OrderRecord where
  id : String
  order_date : Option String
  order_time : Option String
  ordering_physician : String
  laboratory : String
  record_type : String
deriving DecidableEq

/-- Decoded result record (type 03), `LDTProcessor._parse_result_record`. -/
structure LabResultRecord where
  id : String
  test_code : String
  test_name : String
  result_value : String
  unit : String
  reference_range : String
  abnormal_flag : String
  result_date : Option String
  result_time : Option String
  record_type : String
deriving DecidableEq

/-- Decoded comment record (type 04), `LDTProcessor._parse_comment_record`. -/
structure CommentRecord where
  id : String
  comment_text : String
  comment_date : Option String
  comment_time : Option String
  record_type : String
deriving DecidableEq

/-- `LDTProcessor._parse_patient_record`. -/
def parse_patient_record (line : String) : PatientRecord where
  id := pyStrip (pySlice line 2 12)
  last_name := pyStrip (pySlice line 12 42)
  first_name := pyStrip (pySlice line 42 62)
  birth_date := parse_date (pySlice line 62 70)
  gender := pySlice line 70 71
  insurance_number := pyStrip (pySlice line 71 81)
  insurance_type := pySlice line 81 82
  record_type := "01"

/-- `LDTProcessor._parse_order_record`. -/
def parse_order_record (line : String) : OrderRecord where
  id := pyStrip (pySlice line 2 12)
  order_date := parse_date (pySlice line 12 20)
  order_time := parse_time (pySlice line 20 26)
  ordering_physician := pyStrip (pySlice line 26 66)
  laboratory := pyStrip (pySlice line 66 106)
  record_type := "02"

/-- `LDTProcessor._parse_result_record`. -/
def parse_result_record (line : String) : LabResultRecord where
  id := pyStrip (pySlice line 2 12)
  test_code := pyStrip (pySlice line 12 22)
  test_name := pyStrip (pySlice line 22 82)
  result_value := pyStrip (pySlice line 82 122)
  unit := pyStrip (pySlice line 122 132)
  reference_range := pyStrip (pySlice line 132 172)
  abnormal_flag := pySlice line 172 173
  result_date := parse_date (pySlice line 173 181)
  result_time := parse_time (pySlice line 181 187)
  record_type := "03"

/-- `LDTProcessor._parse_comment_record`. -/
def parse_comment_record (line : String) : CommentRecord where
  id := pyStrip (pySlice line 2 12)
  comment_text := pyStrip (pySlice line 12 172)
  comment_date := parse_date (pySlice line 172 180)
  comment_time := parse_time (pySlice line 180 186)
  record_type := "04"

/-! ### LDT file assembler (`LDTProcessor.parse_ldt_content`)

The processor object carries five per-instance lists created by
`LDTProcessor.__init__`; `parse_ldt_content` appends to `self.errors` only
and builds the remaining output in a local dictionary.  The Python
`datetime.now().isoformat()` readings are threaded as an explicit `now`
parameter.  Order and patient dictionaries appended to the output lists are
the very objects held by the `current_order`/`current_patient` cursors, so a
later end-of-order/end-of-patient stamp mutates the already-appended entry;
this is modelled by keeping the cursor as an index into the output list.
No operation of the per-line `try` block can raise in this model (Python
string slicing is total), so the `except` branch that records
`"Line N: Error parsing line: ..."` is unreachable here. -/

/-- Output entry for a patient, with the end-of-patient timestamp that
record type 06 may stamp later. -/
structure PatEntry where
  record : PatientRecord
  end_time : Option String
deriving DecidableEq

/-- Output entry for an order: the decoded record, the patient id inherited
from the current-patient cursor, and the end-of-order timestamp. -/
structure OrderEntry where
  record : OrderRecord
  patient_id : Option String
  end_time : Option String
deriving DecidableEq

/-- Output entry for a result: the decoded record plus the inherited order
and patient ids. -/
structure ResEntry where
  record : LabResultRecord
  order_id : Option String
  patient_id : Option String
deriving DecidableEq

/-- Output entry for a comment: the decoded record plus the inherited order
and patient ids. -/
structure ComEntry where
  record : CommentRecord
  order_id : Option String
  patient_id : Option String
deriving DecidableEq

/-- Assembly state: the four output lists, the accumulated error list and the
current-patient/current-order cursors (index into the output list, record id). -/
structure ProcAcc where
  patients : List PatEntry
  orders : List OrderEntry
  results : List ResEntry
  comments : List ComEntry
  errors : List String
  curPatient : Option (Nat × String)
  curOrder : Option (Nat × String)
deriving DecidableEq

/-- The record-type registry `LDTProcessor.RECORD_TYPES` (its key set). -/
def RECORD_TYPES : List String := ["01", "02", "03", "04", "05", "06", "07"]

/-- Update of the element at an index, used for the end-time stamps. -/
def modifyAt (f : α → α) : Nat → List α → List α
  | _, [] => []
  | 0, a :: as => f a :: as
  | i + 1, a :: as => a :: modifyAt f i as

/-- One iteration of the line loop of `LDTProcessor.parse_ldt_content`:
skip blank lines, record an error for an unknown record type, otherwise
dispatch on the record type. -/
def processLine (now : String) (st : ProcAcc) (lineNum : Nat) (line : String) : ProcAcc :=
  if pyStrip line = "" then st
  else
    let rt := pySlice line 0 2
    if rt ∉ RECORD_TYPES then
      { st with errors := st.errors ++ ["Line " ++ toString lineNum ++ ": Unknown record type " ++ rt] }
    else if rt = "01" then
      let p := parse_patient_record line
      { st with patients := st.patients ++ [⟨p, none⟩],
                curPatient := some (st.patients.length, p.id) }
    else if rt = "02" then
      let o := parse_order_record line
      { st with orders := st.orders ++ [⟨o, st.curPatient.map (·.2), none⟩],
                curOrder := some (st.orders.length, o.id) }
    else if rt = "03" then
      let r := parse_result_record line
      { st with results := st.results ++ [⟨r, st.curOrder.map (·.2), st.curPatient.map (·.2)⟩] }
    else if rt = "04" then
      let c := parse_comment_record line
      { st with comments := st.comments ++ [⟨c, st.curOrder.map (·.2), st.curPatient.map (·.2)⟩] }
    else if rt = "05" then
      match st.curOrder with
      | some (i, _) =>
        { st with orders := modifyAt (fun e => { e with end_time := some now }) i st.orders,
                  curOrder := none }
      | none => st
    else if rt = "06" then
      match st.curPatient with
      | some (i, _) =>
        { st with patients := modifyAt (fun e => { e with end_time := some now }) i st.patients,
                  curPatient := none }
      | none => st
    else st

/-- The enumerated line loop (`for line_num, line in enumerate(lines, 1)`). -/
def goLines (now : String) : Nat → List String → ProcAcc → ProcAcc
  | _, [], st => st
  | n, line :: rest, st => goLines now (n + 1) rest (processLine now st n line)

/-- The dictionary returned by `LDTProcessor.parse_ldt_content`. -/
structure ParsedData where
  patients : List PatEntry
  orders : List OrderEntry
  results : List ResEntry
  comments : List ComEntry
  file_version : String
  processed_at : String
  total_lines : Nat
  errors : List String
deriving DecidableEq

/-- The per-instance state created by `LDTProcessor.__init__` (five lists;
`parse_ldt_content` mutates only `errors`). -/
structure LDTProcessorState where
  patients : List PatEntry
  orders : List OrderEntry
  results : List ResEntry
  comments : List ComEntry
  errors : List String
deriving DecidableEq

/-- `LDTProcessor()`: a fresh processor instance. -/
def LDTProcessor.init : LDTProcessorState :=
  ⟨[], [], [], [], []⟩

/-- `LDTProcessor.parse_ldt_content`, returning the mutated instance and the
parsed-data dictionary.  The returned `errors` list is `self.errors` itself,
so it carries every error accumulated by the instance so far. -/
def parse_ldt_content (proc : LDTProcessorState) (now : String) (content : String) :
    LDTProcessorState × ParsedData :=
  let lines := pySplitNL (pyStrip content)
  let final := goLines now 1 lines ⟨[], [], [], [], proc.errors, none, none⟩
  ({ proc with errors := final.errors },
   { patients := final.patients, orders := final.orders, results := final.results,
     comments := final.comments, file_version := "LDT 3.2.19", processed_at := now,
     total_lines := lines.length, errors := final.errors })

example :
    (parse_patient_record
      "01PATIENT001  DOE                          JOHN                          01011980M1234567890111").id
      = "PATIENT001" := by decide

/-! ### Segment-based message decoder (`LDTMessage._parse_*_segment`)

Each segment parser receives the `'|'`-split parts of one line (tag included
at position 0) and reads named fields positionally; a position beyond the
last part yields the empty string (`segments[i] if len(segments) > i else ''`,
modelled by `List.getD`). -/

/-- `LDTMessage._parse_msh_segment`. -/
structure MshSeg where
  sending_facility : String
  receiving_facility : String
  message_datetime : String
  message_type : String
  message_control_id : String
  processing_id : String
  version_id : String
deriving DecidableEq

/-- `LDTMessage._parse_pid_segment`. -/
structure PidSeg where
  patient_id : String
  patient_name : String
  date_of_birth : String
  gender : String
deriving DecidableEq

/-- `LDTMessage._parse_orc_segment`. -/
structure OrcSeg where
  order_control : String
  placer_order_number : String
  filler_order_number : String
  placer_group_number : String
deriving DecidableEq

/-- `LDTMessage._parse_obr_segment`. -/
structure ObrSeg where
  set_id : String
  placer_order_number : String
  filler_order_number : String
  universal_service_id : String
  priority : String
  requested_datetime : String
  observation_datetime : String
  specimen_received_datetime : String
deriving DecidableEq

/-- `LDTMessage._parse_obx_segment`. -/
structure ObxSeg where
  set_id : String
  value_type : String
  observation_id : String
  sub_id : String
  observation_value : String
  units : String
  reference_range : String
  abnormal_flags : String
  probability : String
  nature_of_abnormal_test : String
  observation_result_status : String
  effective_date_of_reference_range : String
  user_defined_access_checks : String
  observation_datetime : String
  producer_id : String
  responsible_observer : String
deriving DecidableEq

/-- `LDTMessage._parse_msh_segment` on the split parts. -/
def parse_msh_segment (segments : List String) : MshSeg where
  sending_facility := segments.getD 3 ""
  receiving_facility := segments.getD 4 ""
  message_datetime := segments.getD 6 ""
  message_type := segments.getD 8 ""
  message_control_id := segments.getD 9 ""
  processing_id := segments.getD 10 ""
  version_id := segments.getD 11 ""

/-- `LDTMessage._parse_pid_segment` on the split parts. -/
def parse_pid_segment (segments : List String) : PidSeg where
  patient_id := segments.getD 3 ""
  patient_name := segments.getD 5 ""
  date_of_birth := segments.getD 7 ""
  gender := segments.getD 8 ""

/-- `LDTMessage._parse_orc_segment` on the split parts. -/
def parse_orc_segment (segments : List String) : OrcSeg where
  order_control := segments.getD 1 ""
  placer_order_number := segments.getD 2 ""
  filler_order_number := segments.getD 3 ""
  placer_group_number := segments.getD 4 ""

/-- `LDTMessage._parse_obr_segment` on the split parts. -/
def parse_obr_segment (segments : List String) : ObrSeg where
  set_id := segments.getD 1 ""
  placer_order_number := segments.getD 2 ""
  filler_order_number := segments.getD 3 ""
  universal_service_id := segments.getD 4 ""
  priority := segments.getD 5 ""
  requested_datetime := segments.getD 6 ""
  observation_datetime := segments.getD 7 ""
  specimen_received_datetime := segments.getD 14 ""

/-- `LDTMessage._parse_obx_segment` on the split parts. -/
def parse_obx_segment (segments : List String) : ObxSeg where
  set_id := segments.getD 1 ""
  value_type := segments.getD 2 ""
  observation_id := segments.getD 3 ""
  sub_id := segments.getD 4 ""
  observation_value := segments.getD 5 ""
  units := segments.getD 6 ""
  reference_range := segments.getD 7 ""
  abnormal_flags := segments.getD 8 ""
  probability := segments.getD 9 ""
  nature_of_abnormal_test := segments.getD 10 ""
  observation_result_status := segments.getD 11 ""
  effective_date_of_reference_range := segments.getD 12 ""
  user_defined_access_checks := segments.getD 13 ""
  observation_datetime := segments.getD 14 ""
  producer_id := segments.getD 15 ""
  responsible_observer := segments.getD 16 ""

/-- The nested dictionary built by `LDTMessage._parse_ldt_message`: one slot
per non-repeating segment type (a later segment of the same type overwrites
an earlier one) and an ordered accumulating list for OBX segments (an empty
list models the absent `'obx'` key). -/
structure ParsedLdtMessage where
  msh : Option MshSeg
  pid : Option PidSeg
  orc : Option OrcSeg
  obr : Option ObrSeg
  obx : List ObxSeg
deriving DecidableEq

/-- One iteration of the line loop of `LDTMessage._parse_ldt_message`. -/
def parseMsgLine (p : ParsedLdtMessage) (line : String) : ParsedLdtMessage :=
  if pyStrip line = "" then p
  else
    let segments := pySplitOn '|' line
    let segment_type := segments.getD 0 ""
    if segment_type = "MSH" then { p with msh := some (parse_msh_segment segments) }
    else if segment_type = "PID" then { p with pid := some (parse_pid_segment segments) }
    else if segment_type = "ORC" then { p with orc := some (parse_orc_segment segments) }
    else if segment_type = "OBR" then { p with obr := some (parse_obr_segment segments) }
    else if segment_type = "OBX" then { p with obx := p.obx ++ [parse_obx_segment segments] }
    else p

/-- `LDTMessage._parse_ldt_message` over the raw message text. -/
def parse_ldt_message (raw : String) : ParsedLdtMessage :=
  (pySplitNL raw).foldl parseMsgLine ⟨none, none, none, none, []⟩

/-- First-occurrence deduplication, modelling Python's `list(set(...))`
up to ordering (the iteration order of a Python set is unspecified; every
claim about `segment_types` is therefore stated through membership only). -/
def dedupFirst [DecidableEq α] : List α → List α
  | [] => []
  | a :: as => a :: (dedupFirst as).filter (fun x => x ≠ a)

/-- The dictionary built by `LDTMessage._extract_message_structure`. -/
structure MessageStructure where
  total_segments : Nat
  segment_types : List String
  message_size : Nat
  has_patient_data : Bool
  has_order_data : Bool
  has_result_data : Bool
deriving DecidableEq

/-- `LDTMessage._extract_message_structure`: segment count is the number of
newline-split lines, segment types are the deduplicated first `'|'`-fields of
the non-blank lines, and the three presence flags are substring tests on the
raw text. -/
def extract_message_structure (raw : String) : MessageStructure where
  total_segments := (pySplitNL raw).length
  segment_types :=
    dedupFirst (((pySplitNL raw).filter (fun l => pyStrip l ≠ "")).map
      (fun l => (pySplitOn '|' l).getD 0 ""))
  message_size := raw.length
  has_patient_data := pyContains raw "PID"
  has_order_data := pyContains raw "ORC"
  has_result_data := pyContains raw "OBX"

/-! ### `TestResult` rows and the result-message upsert
(`LDTMessage._process_result_message`)

Only the columns that `_process_result_message` reads or writes are modelled.
The `test_order` lookup `LDTMessage._find_test_order` is an unimplemented
external collaborator in the source (it returns `None`); it is threaded here
as an explicit function parameter `findOrder`.  The database table is a list
of rows; `get_or_create` finds the first row matching the
`(ldt_message_id, ldt_obx_sequence)` pair and otherwise appends a new row
built from the `defaults`. -/

/-- The modelled columns of a `TestResult` row. -/
structure TestResultRow where
  ldt_message_id : String
  ldt_obx_sequence : String
  result_id : String
  test_order : Option String
  result_value : String
  result_unit : String
  ldt_raw_data : ObxSeg
  ldt_parsed_data : ObxSeg
  ldt_processing_status : String
deriving DecidableEq

/-- The upsert key `(ldt_message_id, ldt_obx_sequence)` of a row. -/
def rowKey (r : TestResultRow) : String × String :=
  (r.ldt_message_id, r.ldt_obx_sequence)

/-- The key an OBX segment of message `mid` upserts against. -/
def obxKey (mid : String) (o : ObxSeg) : String × String :=
  (mid, o.set_id)

/-- The field updates applied to an existing matching row. -/
def updateRow (r : TestResultRow) (o : ObxSeg) : TestResultRow :=
  { r with result_value := o.observation_value, ldt_raw_data := o,
           ldt_parsed_data := o, ldt_processing_status := "PROCESSED" }

/-- The row created from `defaults` when no matching row exists. -/
def createRow (findOrder : ObxSeg → Option String) (mid : String) (o : ObxSeg) :
    TestResultRow where
  ldt_message_id := mid
  ldt_obx_sequence := o.set_id
  result_id := mid ++ "_" ++ o.set_id
  test_order := findOrder o
  result_value := o.observation_value
  result_unit := o.units
  ldt_raw_data := o
  ldt_parsed_data := o
  ldt_processing_status := "PROCESSED"

/-- `TestResult.objects.get_or_create(...)` followed by the update branch:
update the first row whose key matches, otherwise append the created row. -/
def upsertResult (findOrder : ObxSeg → Option String) (mid : String) (o : ObxSeg) :
    List TestResultRow → List TestResultRow
  | [] => [createRow findOrder mid o]
  | r :: rs =>
    if rowKey r = obxKey mid o then updateRow r o :: rs
    else r :: upsertResult findOrder mid o rs

/-- `LDTMessage._process_result_message`: iterate the parsed OBX segments in
order, upserting each against the table (a no-op when the message has no OBX
segments). -/
def process_result_message (findOrder : ObxSeg → Option String) (mid : String)
    (obxs : List ObxSeg) (db : List TestResultRow) : List TestResultRow :=
  obxs.foldl (fun s o => upsertResult findOrder mid o s) db

/-! ### Message state machine (`LDTMessage.process_message`) and task wrapper
(`results/tasks.py: process_ldt_message_task`)

The persisted message row is modelled with the columns the pipeline touches;
`timezone.now()` and the computed processing duration are threaded as
parameters.  In this embedding every step of the `try` block of
`process_message` is a total function, so the success branch is always taken;
the `except` branch of the task wrapper is driven by an explicit per-execution
behaviour list (an entry `some e` means that execution raises with message
`e`, for example a database error, `none` means it runs the body normally). -/

/-- The modelled columns of an `LDTMessage` row. -/
structure MsgRow where
  id : String
  message_id : String
  message_type : String
  status : String
  raw_message : String
  parsed_message : Option ParsedLdtMessage
  message_structure : Option MessageStructure
  error_message : String
  retry_count : Nat
  max_retries : Nat
  processed_at : Option String
  processing_duration : Option String
deriving DecidableEq

/-- The persisted state a processing attempt operates on: the message row and
the `TestResult` table. -/
def PipelineStore := MsgRow × List TestResultRow

instance : DecidableEq PipelineStore := instDecidableEqProd

/-- `LDTMessage.process_message`: enter `PROCESSING`, parse the raw message,
derive the message structure, dispatch by message type (a `RESULT` message
runs the OBX upsert loop; an `ORDER` message dispatches to the unimplemented
order path, a no-op), then enter `PROCESSED` with the processing timestamps.
Returns the new row, the new result table and the success flag. -/
def process_message (findOrder : ObxSeg → Option String) (now dur : String)
    (msg : MsgRow) (db : List TestResultRow) : MsgRow × List TestResultRow × Bool :=
  let msg1 := { msg with status := "PROCESSING" }
  let parsed := parse_ldt_message msg1.raw_message
  let mstruct := extract_message_structure msg1.raw_message
  let db' :=
    if msg1.message_type = "RESULT" then
      process_result_message findOrder msg1.message_id parsed.obx db
    else db
  ({ msg1 with parsed_message := some parsed, message_structure := some mstruct,
               status := "PROCESSED", processed_at := some now,
               processing_duration := some dur }, db', true)

/-- A log line: severity and text. -/
def LogLine := String × String

instance : DecidableEq LogLine := instDecidableEqProd

/-- The `max_retries` bound of the `process_ldt_message_task` decorator. -/
def celeryMaxRetries : Nat := 3

/-- The body of `process_ldt_message_task` when the execution does not raise:
a message not in `RECEIVED` status is left untouched with a warning,
otherwise `process_message` runs and the outcome is logged. -/
def taskBody (findOrder : ObxSeg → Option String) (now dur : String)
    (st : PipelineStore) : PipelineStore × Bool × List LogLine :=
  if st.1.status ≠ "RECEIVED" then
    (st, false, [("WARNING", "Message " ++ st.1.id ++ " is not in RECEIVED status")])
  else
    let (m, db, ok) := process_message findOrder now dur st.1 st.2
    ((m, db), ok,
     if ok then [("INFO", "Successfully processed LDT message " ++ st.1.id)]
     else [("ERROR", "Failed to process LDT message " ++ st.1.id)])

/-- The terminal branch of the task's `except` handler once
`MaxRetriesExceeded` is raised: the message is re-fetched and marked `ERROR`
with the terminal note; `retry_count` is not touched. -/
def markMaxRetriesExceeded (st : PipelineStore) (e : String) : PipelineStore :=
  ({ st.1 with status := "ERROR", error_message := "Max retries exceeded: " ++ e }, st.2)

/-- The Celery execution loop of `process_ldt_message_task`: `behaviour`
lists, per execution, whether that execution raises (`some e`) or runs the
body (`none`); `k` is `self.request.retries`.  `self.retry` re-executes the
task with `k + 1` while `k` is below the decorator bound and raises
`MaxRetriesExceeded` otherwise. -/
def taskGo (findOrder : ObxSeg → Option String) (now dur : String) :
    List (Option String) → Nat → PipelineStore → PipelineStore × Bool × List LogLine
  | [], _, st => (st, false, [])
  | none :: _, _, st => taskBody findOrder now dur st
  | some e :: rest, k, st =>
    let log0 : LogLine := ("ERROR", "Error processing LDT message " ++ st.1.id ++ ": " ++ e)
    if k < celeryMaxRetries then
      let (st', ok, logs) := taskGo findOrder now dur rest (k + 1) st
      (st', ok, log0 :: logs)
    else
      (markMaxRetriesExceeded st e, false,
       [log0, ("ERROR", "Max retries exceeded for LDT message " ++ st.1.id)])

/-- `process_ldt_message_task`: the task starts with zero prior retries. -/
def process_ldt_message_task (findOrder : ObxSeg → Option String) (now dur : String)
    (behaviour : List (Option String)) (st : PipelineStore) :
    PipelineStore × Bool × List LogLine :=
  taskGo findOrder now dur behaviour 0 st

/-! ### Workflow triggering (`TestResultViewSet._trigger_workflow`) -/

/-- The columns of a `TestResult` row that `_trigger_workflow` inspects. -/
structure TriggerView where
  id : String
  critical_level : String
  validation_status : String
deriving DecidableEq

/-- `TestResult.is_critical`: the critical level lies in the critical/panic set. -/
def is_critical (r : TriggerView) : Bool :=
  ["CRITICAL_LOW", "CRITICAL_HIGH", "PANIC_LOW", "PANIC_HIGH"].contains r.critical_level

/-- A `ResultWorkflow` row as created by `_trigger_workflow`. -/
structure WorkflowRun where
  workflow_id : String
  workflow_type : String
  status : String
  results : List String
deriving DecidableEq

/-- `TestResultViewSet._trigger_workflow`: `if result.is_critical: ...` creates
a `CRITICAL_VALUE_ALERT` run; the `elif result.validation_status == 'PENDING'`
branch creates an `AUTO_VALIDATION` run.  The list of created workflow rows is
returned (each is subsequently executed; execution does not create rows). -/
def trigger_workflow (r : TriggerView) : List WorkflowRun :=
  if is_critical r then
    [⟨"CRITICAL_" ++ r.id, "CRITICAL_VALUE_ALERT", "PENDING", [r.id]⟩]
  else if r.validation_status = "PENDING" then
    [⟨"VALIDATION_" ++ r.id, "AUTO_VALIDATION", "PENDING", [r.id]⟩]
  else []

example :
    (parse_ldt_message "OBX|1|NM|GLU^GLU|1|120|mg/dL|70-110|H|F|||20231201120000").obx.map
      (fun o => (o.set_id, o.observation_value, o.units, o.abnormal_flags))
      = [("1", "120", "mg/dL", "H")] := by decide
example : (extract_message_structure "MSH|PID").has_patient_data = true := by decide
example : trigger_workflow ⟨"R1", "CRITICAL_HIGH", "PENDING"⟩
    = [⟨"CRITICAL_R1", "CRITICAL_VALUE_ALERT", "PENDING", ["R1"]⟩] := by decide

/-! ## Claim theorems -/

/-- Helper: a positional read past the end of the split parts is empty. -/
theorem getD_past_end (l : List String) (i : Nat) (h : l.length ≤ i) : l.getD i "" = "" :=
  List.getD_eq_default l "" h

/-- C8.  For every delimiter-separated segment line, each segment type's named
fields are read positionally from the split parts, and any field whose
position lies past the last part present decodes to the empty string: segment
decoding is total and never fails with an index error, for segments of any
length, including a bare tag with no fields (for which every field of every
segment parser is empty). -/
theorem c8_missing_parts_decode_empty (segments : List String) :
    (segments.length ≤ 1 →
      parse_obx_segment segments = ⟨"", "", "", "", "", "", "", "", "", "", "", "", "", "", "", ""⟩ ∧
      parse_msh_segment segments = ⟨"", "", "", "", "", "", ""⟩ ∧
      parse_pid_segment segments = ⟨"", "", "", ""⟩ ∧
      parse_orc_segment segments = ⟨"", "", "", ""⟩ ∧
      parse_obr_segment segments = ⟨"", "", "", "", "", "", "", ""⟩) ∧
    (segments.length ≤ 1 → (parse_obx_segment segments).set_id = "") ∧
    (segments.length ≤ 2 → (parse_obx_segment segments).value_type = "") ∧
    (segments.length ≤ 3 → (parse_obx_segment segments).observation_id = "") ∧
    (segments.length ≤ 4 → (parse_obx_segment segments).sub_id = "") ∧
    (segments.length ≤ 5 → (parse_obx_segment segments).observation_value = "") ∧
    (segments.length ≤ 6 → (parse_obx_segment segments).units = "") ∧
    (segments.length ≤ 7 → (parse_obx_segment segments).reference_range = "") ∧
    (segments.length ≤ 8 → (parse_obx_segment segments).abnormal_flags = "") ∧
    (segments.length ≤ 9 → (parse_obx_segment segments).probability = "") ∧
    (segments.length ≤ 10 → (parse_obx_segment segments).nature_of_abnormal_test = "") ∧
    (segments.length ≤ 11 → (parse_obx_segment segments).observation_result_status = "") ∧
    (segments.length ≤ 12 → (parse_obx_segment segments).effective_date_of_reference_range = "") ∧
    (segments.length ≤ 13 → (parse_obx_segment segments).user_defined_access_checks = "") ∧
    (segments.length ≤ 14 → (parse_obx_segment segments).observation_datetime = "") ∧
    (segments.length ≤ 15 → (parse_obx_segment segments).producer_id = "") ∧
    (segments.length ≤ 16 → (parse_obx_segment segments).responsible_observer = "") ∧
    (segments.length ≤ 3 → (parse_msh_segment segments).sending_facility = "") ∧
    (segments.length ≤ 4 → (parse_msh_segment segments).receiving_facility = "") ∧
    (segments.length ≤ 6 → (parse_msh_segment segments).message_datetime = "") ∧
    (segments.length ≤ 8 → (parse_msh_segment segments).message_type = "") ∧
    (segments.length ≤ 9 → (parse_msh_segment segments).message_control_id = "") ∧
    (segments.length ≤ 10 → (parse_msh_segment segments).processing_id = "") ∧
    (segments.length ≤ 11 → (parse_msh_segment segments).version_id = "") := by
  refine ⟨fun h => ?_, ?_, ?_, ?_, ?_, ?_, ?_, ?_, ?_, ?_, ?_, ?_, ?_, ?_, ?_, ?_, ?_,
    ?_, ?_, ?_, ?_, ?_, ?_, ?_⟩
  · simp only [parse_obx_segment, parse_msh_segment, parse_pid_segment, parse_orc_segment,
      parse_obr_segment, ObxSeg.mk.injEq, MshSeg.mk.injEq, PidSeg.mk.injEq, OrcSeg.mk.injEq,
      ObrSeg.mk.injEq]
    and_intros <;> exact getD_past_end _ _ (by omega)
  all_goals exact fun h => getD_past_end _ _ (by omega)

/-- C8 witness: a bare `OBX` tag and a bare `MSH` tag decode with every
field empty. -/
theorem c8_missing_parts_decode_empty_witness :
    (parse_obx_segment ["OBX"]).observation_value = "" ∧
    (parse_msh_segment ["MSH"]).version_id = "" := by
  exact ⟨(c8_missing_parts_decode_empty ["OBX"]).2.2.2.2.2.1 (by decide),
         (c8_missing_parts_decode_empty ["MSH"]).2.2.2.2.2.2.2.2.2.2.2.2.2.2.2.2.2.2.2.2.2.2.2
           (by decide)⟩

/-- C2 counterexample: a result that is both critical (`CRITICAL_HIGH`) and in
pending validation status yields exactly one created WorkflowRun, of type
`CRITICAL_VALUE_ALERT`, and no `AUTO_VALIDATION` run — not the two separate
runs the claim requires. -/
theorem c2_counterexample :
    trigger_workflow ⟨"R1", "CRITICAL_HIGH", "PENDING"⟩
        = [⟨"CRITICAL_R1", "CRITICAL_VALUE_ALERT", "PENDING", ["R1"]⟩] ∧
    (trigger_workflow ⟨"R1", "CRITICAL_HIGH", "PENDING"⟩).length = 1 ∧
    ∀ w ∈ trigger_workflow ⟨"R1", "CRITICAL_HIGH", "PENDING"⟩,
      w.workflow_type ≠ "AUTO_VALIDATION" := by
  decide

/-- C2 (amended).  The two triggering conditions are checked in priority
order, not independently: a single trigger creates at most one WorkflowRun;
a critical result yields exactly one `CRITICAL_VALUE_ALERT` run (regardless
of validation status), an `AUTO_VALIDATION` run is created exactly when the
result is not critical and has pending validation status, and otherwise no
run is created. -/
theorem c2_trigger_priority (r : TriggerView) :
    (trigger_workflow r).length ≤ 1 ∧
    (is_critical r = true →
      trigger_workflow r = [⟨"CRITICAL_" ++ r.id, "CRITICAL_VALUE_ALERT", "PENDING", [r.id]⟩]) ∧
    (is_critical r = false → r.validation_status = "PENDING" →
      trigger_workflow r = [⟨"VALIDATION_" ++ r.id, "AUTO_VALIDATION", "PENDING", [r.id]⟩]) ∧
    (is_critical r = false → r.validation_status ≠ "PENDING" →
      trigger_workflow r = []) := by
  unfold trigger_workflow
  refine ⟨?_, fun hc => ?_, fun hc hv => ?_, fun hc hv => ?_⟩
  · split
    · simp
    · split <;> simp
  · simp [hc]
  · simp [hc, hv]
  · simp [hc, hv]

/-- C2 witness: the amended facts evaluated at concrete results. -/
theorem c2_trigger_priority_witness :
    trigger_workflow ⟨"R2", "PANIC_LOW", "VALIDATED"⟩
        = [⟨"CRITICAL_R2", "CRITICAL_VALUE_ALERT", "PENDING", ["R2"]⟩] ∧
    trigger_workflow ⟨"R3", "NORMAL", "PENDING"⟩
        = [⟨"VALIDATION_R3", "AUTO_VALIDATION", "PENDING", ["R3"]⟩] ∧
    trigger_workflow ⟨"R4", "NORMAL", "VALIDATED"⟩ = [] := by
  exact ⟨(c2_trigger_priority ⟨"R2", "PANIC_LOW", "VALIDATED"⟩).2.1 (by decide),
         (c2_trigger_priority ⟨"R3", "NORMAL", "PENDING"⟩).2.2.1 (by decide) (by decide),
         (c2_trigger_priority ⟨"R4", "NORMAL", "VALIDATED"⟩).2.2.2 (by decide) (by decide)⟩

/-- C4.  Processing is a no-op on a message that is not in `RECEIVED` status:
when the task executes normally on such a message it leaves the message row
and the result table completely unchanged, returns `False`, and logs exactly
one warning (no error).  `rest` is the behaviour of the executions that never
happen and `k` the prior retry count. -/
theorem c4_non_received_is_noop (findOrder : ObxSeg → Option String) (now dur : String)
    (rest : List (Option String)) (msg : MsgRow) (db : List TestResultRow)
    (h : msg.status ≠ "RECEIVED") :
    taskGo findOrder now dur (none :: rest) 0 (msg, db)
      = ((msg, db), false,
         [("WARNING", "Message " ++ msg.id ++ " is not in RECEIVED status")]) := by
  simp [taskGo, taskBody, h]

/-- C4 witness: a concrete already-`PROCESSED` message is left untouched. -/
theorem c4_non_received_is_noop_witness :
    taskGo (fun _ => none) "t0" "d0" [none]
        0 (⟨"m1", "MSG1", "RESULT", "PROCESSED", "OBX|1", none, none, "", 0, 3, none, none⟩, [])
      = ((⟨"m1", "MSG1", "RESULT", "PROCESSED", "OBX|1", none, none, "", 0, 3, none, none⟩, []),
         false, [("WARNING", "Message m1 is not in RECEIVED status")]) := by
  exact c4_non_received_is_noop (fun _ => none) "t0" "d0" []
    ⟨"m1", "MSG1", "RESULT", "PROCESSED", "OBX|1", none, none, "", 0, 3, none, none⟩ []
    (by decide)

/-- C3 counterexample: a freshly received message whose four task executions
(the initial run and the three retries allowed by the decorator bound) all
raise ends in status `ERROR`, but its persisted `retry_count` column is still
0 while `max_retries` is 3 — the task never writes `retry_count`, so the
claimed `retry_count == max_retries` fails. -/
theorem c3_counterexample :
    ((process_ldt_message_task (fun _ => none) "t0" "d0"
        [some "boom", some "boom", some "boom", some "boom"]
        (⟨"m1", "MSG1", "RESULT", "RECEIVED", "OBX|1", none, none, "", 0, 3, none, none⟩,
         [])).1.1.status = "ERROR") ∧
    ((process_ldt_message_task (fun _ => none) "t0" "d0"
        [some "boom", some "boom", some "boom", some "boom"]
        (⟨"m1", "MSG1", "RESULT", "RECEIVED", "OBX|1", none, none, "", 0, 3, none, none⟩,
         [])).1.1.retry_count = 0) ∧
    ((process_ldt_message_task (fun _ => none) "t0" "d0"
        [some "boom", some "boom", some "boom", some "boom"]
        (⟨"m1", "MSG1", "RESULT", "RECEIVED", "OBX|1", none, none, "", 0, 3, none, none⟩,
         [])).1.1.max_retries = 3) := by
  decide

/-- C3 (amended).  When every execution of the task raises, the retry budget
(the decorator bound of 3 retries after the initial attempt) is exhausted and
the message is marked `ERROR` with the terminal note
`"Max retries exceeded: <exc>"`; the persisted `retry_count` column is left
unchanged by the task (it is never incremented), so it keeps its prior value
(0 by default) rather than becoming equal to `max_retries`.  The result table
is also unchanged. -/
theorem c3_exhausted_retries_error (findOrder : ObxSeg → Option String)
    (now dur e1 e2 e3 e4 : String) (rest : List (Option String))
    (msg : MsgRow) (db : List TestResultRow) :
    process_ldt_message_task findOrder now dur
        ([some e1, some e2, some e3, some e4] ++ rest) (msg, db)
      = (({ msg with status := "ERROR", error_message := "Max retries exceeded: " ++ e4 },
          db), false,
         [("ERROR", "Error processing LDT message " ++ msg.id ++ ": " ++ e1),
          ("ERROR", "Error processing LDT message " ++ msg.id ++ ": " ++ e2),
          ("ERROR", "Error processing LDT message " ++ msg.id ++ ": " ++ e3),
          ("ERROR", "Error processing LDT message " ++ msg.id ++ ": " ++ e4),
          ("ERROR", "Max retries exceeded for LDT message " ++ msg.id)]) := by
  simp [process_ldt_message_task, taskGo, celeryMaxRetries, markMaxRetriesExceeded]

/-! ### Whitespace-stripping lemmas (for C5) -/

/-- `dropWhile` is idempotent. -/
theorem dropWhile_dropWhile (p : Char → Bool) (l : List Char) :
    (l.dropWhile p).dropWhile p = l.dropWhile p := by
  induction l with
  | nil => rfl
  | cons c cs ih =>
    by_cases h : p c
    · simpa [List.dropWhile, h] using ih
    · simp [List.dropWhile, h]

/-- `dropTrail` is idempotent. -/
theorem dropTrail_dropTrail (l : List Char) : dropTrail (dropTrail l) = dropTrail l := by
  induction l with
  | nil => rfl
  | cons c cs ih =>
    by_cases h : dropTrail cs = [] ∧ c.isWhitespace
    · simp [dropTrail, h]
    · simp only [dropTrail, if_neg h]
      rw [ih, if_neg h]

/-- The head of a `dropTrail` result is the head of its input (or the result
is empty). -/
theorem dropTrail_head (c : Char) (cs : List Char) :
    dropTrail (c :: cs) = [] ∨ ∃ t, dropTrail (c :: cs) = c :: t := by
  by_cases h : dropTrail cs = [] ∧ c.isWhitespace
  · exact Or.inl (by simp [dropTrail, h])
  · exact Or.inr ⟨dropTrail cs, by simp [dropTrail, h]⟩

/-- Stripping is idempotent. -/
theorem stripList_stripList (l : List Char) : stripList (stripList l) = stripList l := by
  unfold stripList
  have h1 : (l.dropWhile Char.isWhitespace).dropWhile Char.isWhitespace
      = l.dropWhile Char.isWhitespace := dropWhile_dropWhile _ l
  have h2 : (dropTrail (l.dropWhile Char.isWhitespace)).dropWhile Char.isWhitespace
      = dropTrail (l.dropWhile Char.isWhitespace) := by
    cases hdw : l.dropWhile Char.isWhitespace with
    | nil => simp [dropTrail]
    | cons c cs =>
      have hc : ¬ Char.isWhitespace c := by
        have := List.head?_dropWhile_not Char.isWhitespace l
        rw [hdw] at this
        simpa using this
      rcases dropTrail_head c cs with he | ⟨t, ht⟩
      · simp [he]
      · simp [ht, List.dropWhile, hc]
  rw [h2, dropTrail_dropTrail]

/-- `pyStrip` is idempotent (Python `s.strip().strip() == s.strip()`). -/
theorem pyStrip_pyStrip (s : String) : pyStrip (pyStrip s) = pyStrip s := by
  simp [pyStrip, stripList_stripList]

/-- A string carries no surrounding whitespace when stripping it changes
nothing. -/
def noSurroundingWs (s : String) : Prop := pyStrip s = s

instance (s : String) : Decidable (noSurroundingWs s) := by
  unfold noSurroundingWs; infer_instance

/-- C5 counterexample: the single-character gender field is extracted as the
raw slice `line[70:71]` without `.strip()`; a type-01 line whose position 70
holds a space decodes to a gender field `" "` that carries whitespace. -/
theorem c5_counterexample :
    (parse_patient_record
        (String.mk ('0' :: '1' :: (List.replicate 68 'X' ++ [' '])))).gender = " " ∧
    ¬ noSurroundingWs
      (parse_patient_record
        (String.mk ('0' :: '1' :: (List.replicate 68 'X' ++ [' '])))).gender := by
  decide

/-- C5 (amended).  Every multi-character text field extracted by the
fixed-field record decoder is stripped of surrounding whitespace, for every
input line and all four record types; the three single-character fields —
patient gender, patient insurance type and result abnormal flag — are raw
one-character slices and may carry whitespace (see the counterexample). -/
theorem c5_fields_are_stripped (line : String) :
    noSurroundingWs (parse_patient_record line).id ∧
    noSurroundingWs (parse_patient_record line).last_name ∧
    noSurroundingWs (parse_patient_record line).first_name ∧
    noSurroundingWs (parse_patient_record line).insurance_number ∧
    noSurroundingWs (parse_order_record line).id ∧
    noSurroundingWs (parse_order_record line).ordering_physician ∧
    noSurroundingWs (parse_order_record line).laboratory ∧
    noSurroundingWs (parse_result_record line).id ∧
    noSurroundingWs (parse_result_record line).test_code ∧
    noSurroundingWs (parse_result_record line).test_name ∧
    noSurroundingWs (parse_result_record line).result_value ∧
    noSurroundingWs (parse_result_record line).unit ∧
    noSurroundingWs (parse_result_record line).reference_range ∧
    noSurroundingWs (parse_comment_record line).id ∧
    noSurroundingWs (parse_comment_record line).comment_text := by
  and_intros <;>
    exact pyStrip_pyStrip _

/-! ### Error accumulation across parses (for C10) -/

/-- One line step only ever appends to the error list. -/
theorem processLine_errors (now : String) (st : ProcAcc) (n : Nat) (line : String) :
    ∃ d, (processLine now st n line).errors = st.errors ++ d := by
  unfold processLine
  by_cases hb : pyStrip line = ""
  · exact ⟨[], by simp [hb]⟩
  · simp only [if_neg hb]
    by_cases hu : pySlice line 0 2 ∉ RECORD_TYPES
    · exact ⟨["Line " ++ toString n ++ ": Unknown record type " ++ pySlice line 0 2],
        by simp [hu]⟩
    · simp only [if_neg hu]
      split
      · exact ⟨[], by simp⟩
      · split
        · exact ⟨[], by simp⟩
        · split
          · exact ⟨[], by simp⟩
          · split
            · exact ⟨[], by simp⟩
            · split
              · split <;> exact ⟨[], by simp⟩
              · split
                · split <;> exact ⟨[], by simp⟩
                · exact ⟨[], by simp⟩

/-- The line loop only ever appends to the error list. -/
theorem goLines_errors (now : String) (l : List String) (n : Nat) (st : ProcAcc) :
    ∃ d, (goLines now n l st).errors = st.errors ++ d := by
  induction l generalizing n st with
  | nil => exact ⟨[], by simp [goLines]⟩
  | cons line rest ih =>
    obtain ⟨d1, h1⟩ := processLine_errors now st n line
    obtain ⟨d2, h2⟩ := ih (n + 1) (processLine now st n line)
    exact ⟨d1 ++ d2, by simp [goLines, h2, h1]⟩

/-- C10.  The per-instance error list of an `LDTProcessor` is never reset
between parses: on a fresh instance, parsing `c1` and then parsing different
content `c2` on the same instance returns an error list that still begins
with every error entry recorded during the first parse — the returned errors
are a function of the instance's whole parse history, not of the second file
content alone. -/
theorem c10_errors_accumulate_across_parses (now1 now2 c1 c2 : String) :
    ∃ d,
      (parse_ldt_content
          (parse_ldt_content LDTProcessor.init now1 c1).1 now2 c2).2.errors
        = (parse_ldt_content LDTProcessor.init now1 c1).2.errors ++ d := by
  unfold parse_ldt_content
  simp only
  obtain ⟨d1, h1⟩ := goLines_errors now1 (pySplitNL (pyStrip c1)) 1
    ⟨[], [], [], [], LDTProcessor.init.errors, none, none⟩
  obtain ⟨d2, h2⟩ := goLines_errors now2 (pySplitNL (pyStrip c2)) 1
    ⟨[], [], [], [],
      (goLines now1 1 (pySplitNL (pyStrip c1))
        ⟨[], [], [], [], LDTProcessor.init.errors, none, none⟩).errors, none, none⟩
  exact ⟨d2, by simp [h2]⟩

/-! ### Single-malformed-line assembly (for C7) -/

/-- Total number of structured records (patients, orders, results, comments)
held by an assembly state. -/
def recCount (st : ProcAcc) : Nat :=
  st.patients.length + st.orders.length + st.results.length + st.comments.length

/-- The record-producing record types. -/
def recordProducingTypes : List String := ["01", "02", "03", "04"]

/-- The line loop splits over list append, advancing the line counter. -/
theorem goLines_append (now : String) (l1 l2 : List String) (n : Nat) (st : ProcAcc) :
    goLines now n (l1 ++ l2) st = goLines now (n + l1.length) l2 (goLines now n l1 st) := by
  induction l1 generalizing n st with
  | nil => simp [goLines]
  | cons line rest ih =>
    simp only [List.cons_append, goLines, List.length_cons, List.append_eq]
    rw [ih, show n + (rest.length + 1) = n + 1 + rest.length from by omega]

/-- A non-blank line with a record-producing type appends exactly one record
and no error. -/
theorem processLine_good (now : String) (st : ProcAcc) (n : Nat) (line : String)
    (hb : pyStrip line ≠ "") (ht : pySlice line 0 2 ∈ recordProducingTypes) :
    recCount (processLine now st n line) = recCount st + 1 ∧
    (processLine now st n line).errors = st.errors := by
  simp only [recordProducingTypes, List.mem_cons, List.not_mem_nil, or_false] at ht
  unfold processLine
  rcases ht with h | h | h | h <;> rw [h]
  · rw [if_neg hb, if_neg (by decide : ¬ (("01" : String) ∉ RECORD_TYPES)), if_pos rfl]
    exact ⟨by simp only [recCount, List.length_append, List.length_cons, List.length_nil]; omega,
      rfl⟩
  · rw [if_neg hb, if_neg (by decide : ¬ (("02" : String) ∉ RECORD_TYPES)),
      if_neg (by decide : ¬ (("02" : String) = "01")), if_pos rfl]
    exact ⟨by simp only [recCount, List.length_append, List.length_cons, List.length_nil]; omega,
      rfl⟩
  · rw [if_neg hb, if_neg (by decide : ¬ (("03" : String) ∉ RECORD_TYPES)),
      if_neg (by decide : ¬ (("03" : String) = "01")),
      if_neg (by decide : ¬ (("03" : String) = "02")), if_pos rfl]
    exact ⟨by simp only [recCount, List.length_append, List.length_cons, List.length_nil]; omega,
      rfl⟩
  · rw [if_neg hb, if_neg (by decide : ¬ (("04" : String) ∉ RECORD_TYPES)),
      if_neg (by decide : ¬ (("04" : String) = "01")),
      if_neg (by decide : ¬ (("04" : String) = "02")),
      if_neg (by decide : ¬ (("04" : String) = "03")), if_pos rfl]
    exact ⟨by simp only [recCount, List.length_append, List.length_cons, List.length_nil]; omega,
      rfl⟩

/-- An unknown record type appends exactly one error, of the form
`"Line N: Unknown record type <tag>"`, and no record. -/
theorem processLine_unknown (now : String) (st : ProcAcc) (n : Nat) (line : String)
    (hb : pyStrip line ≠ "") (ht : pySlice line 0 2 ∉ RECORD_TYPES) :
    recCount (processLine now st n line) = recCount st ∧
    (processLine now st n line).errors
      = st.errors ++ ["Line " ++ toString n ++ ": Unknown record type " ++ pySlice line 0 2] := by
  simp [processLine, hb, ht, recCount]

/-- Over a run of good lines the loop adds one record per line and no error. -/
theorem goLines_good (now : String) (l : List String) (n : Nat) (st : ProcAcc)
    (h : ∀ line ∈ l, pyStrip line ≠ "" ∧ pySlice line 0 2 ∈ recordProducingTypes) :
    recCount (goLines now n l st) = recCount st + l.length ∧
    (goLines now n l st).errors = st.errors := by
  induction l generalizing n st with
  | nil => simp [goLines]
  | cons line rest ih =>
    obtain ⟨hb, ht⟩ := h line (by simp)
    obtain ⟨hc, he⟩ := processLine_good now st n line hb ht
    obtain ⟨hc2, he2⟩ := ih (n + 1) (processLine now st n line)
      (fun x hx => h x (by simp [hx]))
    refine ⟨?_, by simp [goLines, he2, he]⟩
    simp only [goLines, hc2, hc, List.length_cons]
    omega

/-- C7.  For every file whose stripped content splits into lines
`pre ++ [bad] ++ post` where every line of `pre` and `post` is a non-blank
record-producing line (types 01–04) and `bad` is a non-blank line with an
unregistered record type, assembly on a fresh parser returns exactly
`pre.length + post.length` structured records (one per valid line) together
with exactly one recorded line error
`"Line N: Unknown record type <tag>"` for the malformed line's 1-based
position `N`, and does not abort: the remaining lines are still processed
(assembly is a total function in this model and never raises). -/
theorem c7_single_malformed_line (now content : String) (pre post : List String)
    (bad : String)
    (hsplit : pySplitNL (pyStrip content) = pre ++ bad :: post)
    (hgood : ∀ line ∈ pre ++ post,
      pyStrip line ≠ "" ∧ pySlice line 0 2 ∈ recordProducingTypes)
    (hbadnb : pyStrip bad ≠ "")
    (hbadtag : pySlice bad 0 2 ∉ RECORD_TYPES) :
    ((parse_ldt_content LDTProcessor.init now content).2.patients.length
      + (parse_ldt_content LDTProcessor.init now content).2.orders.length
      + (parse_ldt_content LDTProcessor.init now content).2.results.length
      + (parse_ldt_content LDTProcessor.init now content).2.comments.length
      = pre.length + post.length) ∧
    (parse_ldt_content LDTProcessor.init now content).2.errors
      = ["Line " ++ toString (pre.length + 1) ++ ": Unknown record type "
          ++ pySlice bad 0 2] := by
  have hpre : ∀ line ∈ pre, pyStrip line ≠ "" ∧ pySlice line 0 2 ∈ recordProducingTypes :=
    fun x hx => hgood x (by simp [hx])
  have hpost : ∀ line ∈ post, pyStrip line ≠ "" ∧ pySlice line 0 2 ∈ recordProducingTypes :=
    fun x hx => hgood x (by simp [hx])
  unfold parse_ldt_content
  simp only [hsplit]
  set st0 : ProcAcc := ⟨[], [], [], [], LDTProcessor.init.errors, none, none⟩ with hst0
  rw [goLines_append]
  set st1 := goLines now 1 pre st0 with hst1
  obtain ⟨hc1, he1⟩ := goLines_good now pre 1 st0 hpre
  simp only [goLines]
  set st2 := processLine now st1 (1 + pre.length) bad with hst2
  obtain ⟨hc2, he2⟩ := processLine_unknown now st1 (1 + pre.length) bad hbadnb hbadtag
  obtain ⟨hc3, he3⟩ := goLines_good now post (1 + pre.length + 1) st2 hpost
  constructor
  · have : recCount (goLines now (1 + pre.length + 1) post st2) = pre.length + post.length := by
      rw [hc3, hc2, hc1]
      simp [recCount, hst0, LDTProcessor.init]
    simpa [recCount] using this
  · rw [he3, he2, he1]
    simp [hst0, LDTProcessor.init, Nat.add_comm]

/-- C7 witness: a three-line file whose middle line has the unknown record
type `ZZ` yields two structured records and exactly the error
`"Line 2: Unknown record type ZZ"`. -/
theorem c7_single_malformed_line_witness :
    ((parse_ldt_content LDTProcessor.init "t0" "01A\nZZ\n03B").2.patients.length
      + (parse_ldt_content LDTProcessor.init "t0" "01A\nZZ\n03B").2.orders.length
      + (parse_ldt_content LDTProcessor.init "t0" "01A\nZZ\n03B").2.results.length
      + (parse_ldt_content LDTProcessor.init "t0" "01A\nZZ\n03B").2.comments.length = 2) ∧
    (parse_ldt_content LDTProcessor.init "t0" "01A\nZZ\n03B").2.errors
      = ["Line 2: Unknown record type ZZ"] := by
  have h := c7_single_malformed_line "t0" "01A\nZZ\n03B" ["01A"] ["03B"] "ZZ"
    (by decide) (by decide) (by decide) (by decide)
  exact ⟨h.1, by rw [h.2]; decide⟩

/-! ### Split / substring lemmas (for C9) -/

/-- `splitListOn` always returns at least one part. -/
theorem splitListOn_ne_nil (sep : Char) (l : List Char) : splitListOn sep l ≠ [] := by
  induction l with
  | nil => simp [splitListOn]
  | cons c cs ih =>
    unfold splitListOn
    by_cases h : c = sep
    · simp [h]
    · simp only [if_neg h]
      cases hcs : splitListOn sep cs with
      | nil => simp
      | cons p ps => simp

/-- The first part of a split is a prefix of the input. -/
theorem splitListOn_head_prefix (sep : Char) (l : List Char) (h : List Char)
    (t : List (List Char)) (he : splitListOn sep l = h :: t) : h <+: l := by
  induction l generalizing h t with
  | nil =>
    simp [splitListOn] at he
    simp [he.1]
  | cons c cs ih =>
    unfold splitListOn at he
    by_cases hc : c = sep
    · simp only [if_pos hc] at he
      cases he
      simp
    · simp only [if_neg hc] at he
      cases hcs : splitListOn sep cs with
      | nil => exact absurd hcs (splitListOn_ne_nil sep cs)
      | cons p ps =>
        rw [hcs] at he
        cases he
        obtain ⟨r, hr⟩ := ih p _ hcs
        exact ⟨r, by simp [hr]⟩

/-- Every part of a split is an infix of the input. -/
theorem splitListOn_mem_infix (sep : Char) (l : List Char) (p : List Char)
    (hp : p ∈ splitListOn sep l) : p <:+: l := by
  induction l generalizing p with
  | nil =>
    simp [splitListOn] at hp
    simp [hp]
  | cons c cs ih =>
    unfold splitListOn at hp
    by_cases hc : c = sep
    · simp only [if_pos hc, List.mem_cons] at hp
      rcases hp with h | h
      · simp [h]
      · exact (ih p h).trans (List.infix_cons (List.infix_refl cs))
    · simp only [if_neg hc] at hp
      cases hcs : splitListOn sep cs with
      | nil => exact absurd hcs (splitListOn_ne_nil sep cs)
      | cons q qs =>
        rw [hcs] at hp
        simp only [List.mem_cons] at hp
        rcases hp with h | h
        · subst h
          obtain ⟨r, hr⟩ := splitListOn_head_prefix sep cs q qs hcs
          exact ⟨[], r, by simp [hr]⟩
        · exact (ih p (by simp [hcs, h])).trans (List.infix_cons (List.infix_refl cs))

/-- Substring search succeeds on every infix. -/
theorem containsSub_of_infix (needle hay : List Char) (h : needle <:+: hay) :
    containsSub needle hay = true := by
  obtain ⟨s, t, hst⟩ := h
  induction s generalizing hay with
  | nil =>
    subst hst
    cases needle with
    | nil => cases t <;> simp [containsSub, List.isPrefixOf]
    | cons n ns =>
      simp only [List.nil_append, List.cons_append, containsSub, Bool.or_eq_true]
      exact Or.inl (List.isPrefixOf_iff_prefix.mpr ⟨t, by simp⟩)
  | cons a s' ih =>
    subst hst
    simp only [List.cons_append, containsSub, Bool.or_eq_true]
    exact Or.inr (ih (s' ++ needle ++ t) rfl)

/-- Membership in `dedupFirst` coincides with membership in the input. -/
theorem dedupFirst_mem [DecidableEq α] (l : List α) (a : α) :
    a ∈ dedupFirst l ↔ a ∈ l := by
  induction l with
  | nil => simp [dedupFirst]
  | cons b bs ih =>
    simp only [dedupFirst, List.mem_cons, List.mem_filter]
    constructor
    · rintro (h | ⟨h, _⟩)
      · exact Or.inl h
      · exact Or.inr (ih.mp h)
    · rintro (h | h)
      · exact Or.inl h
      · by_cases hab : a = b
        · exact Or.inl hab
        · exact Or.inr ⟨ih.mpr h, by simpa using hab⟩

/-- The list of segment tags present in a raw message, following the spec's
words: the first `'|'`-field of every non-blank newline-separated line.
("the set of distinct segment tags present" / "contains a PID/ORC/OBX
segment"); used to compare the derived structure against the specified one. -/
def segTagsSpec (raw : String) : List String :=
  ((pySplitNL raw).filter (fun l => !(pyStrip l == ""))).map
    (fun l => (pySplitOn '|' l).getD 0 "")

/-- The number of segments a raw message contains, following the spec's
words: one segment per non-blank newline-separated line. -/
def specSegCount (raw : String) : Nat :=
  ((pySplitNL raw).filter (fun l => !(pyStrip l == ""))).length

/-- C9 counterexample: the raw message `"MSH|PID\n"` consists of a single
`MSH` segment (its only non-blank line) and contains no `PID` segment, yet
the derived structure reports a total segment count of 2 — `split('\n')`
counts the blank trailing line — and `has_patient_data = true`, because the
flag is computed as a raw-text substring test (`'PID' in raw`), not as
segment presence.  The segment-type list is exactly `["MSH"]`. -/
theorem c9_counterexample :
    (extract_message_structure "MSH|PID\n").total_segments = 2 ∧
    specSegCount "MSH|PID\n" = 1 ∧
    (extract_message_structure "MSH|PID\n").has_patient_data = true ∧
    "PID" ∉ segTagsSpec "MSH|PID\n" ∧
    (extract_message_structure "MSH|PID\n").segment_types = ["MSH"] := by
  decide

/-- A tag read from a line of the raw text is a substring of the raw text. -/
theorem tag_contained (raw t : String) (ht : t ∈ segTagsSpec raw) :
    pyContains raw t = true := by
  simp only [segTagsSpec, List.mem_map, List.mem_filter] at ht
  obtain ⟨l, ⟨hl, _⟩, htag⟩ := ht
  simp only [pySplitNL, pySplitOn, List.mem_map] at hl
  obtain ⟨p, hp, rfl⟩ := hl
  have hinfix : p <:+: raw.data := splitListOn_mem_infix '\n' raw.data p hp
  cases hsplit : splitListOn '|' (String.mk p).data with
  | nil => exact absurd hsplit (splitListOn_ne_nil _ _)
  | cons q qs =>
    have hq : q <+: p := splitListOn_head_prefix '|' p q qs hsplit
    have : t = String.mk q := by
      rw [← htag]
      simp [pySplitOn, hsplit]
    subst this
    have : q <:+: raw.data := hq.isInfix.trans hinfix
    exact containsSub_of_infix q raw.data this

/-- C9 (amended).  For every raw message the derived structure satisfies:
the total segment count is at least the number of segments in the message
(one per non-blank line) and equals it exactly when the raw text contains no
blank newline-separated lines — the code counts every `split('\n')` line,
blank ones included, so it over-counts otherwise; the message size is the
raw text length; the segment-type list contains exactly the distinct
first-`'|'`-fields of the non-blank lines; and each presence flag is implied
by the presence of the corresponding `PID`/`ORC`/`OBX` segment — but the
flags are raw-text substring tests, so they can also hold without such a
segment (see the counterexample). -/
theorem c9_structure_statistics (raw : String) :
    specSegCount raw ≤ (extract_message_structure raw).total_segments ∧
    ((∀ l ∈ pySplitNL raw, pyStrip l ≠ "") →
      (extract_message_structure raw).total_segments = specSegCount raw) ∧
    (extract_message_structure raw).message_size = raw.length ∧
    (∀ t, t ∈ (extract_message_structure raw).segment_types ↔ t ∈ segTagsSpec raw) ∧
    ("PID" ∈ segTagsSpec raw → (extract_message_structure raw).has_patient_data = true) ∧
    ("ORC" ∈ segTagsSpec raw → (extract_message_structure raw).has_order_data = true) ∧
    ("OBX" ∈ segTagsSpec raw → (extract_message_structure raw).has_result_data = true) := by
  refine ⟨List.length_filter_le _ _, fun hnb => ?_, rfl, fun t => ?_,
    fun h => tag_contained raw "PID" h, fun h => tag_contained raw "ORC" h,
    fun h => tag_contained raw "OBX" h⟩
  · show (pySplitNL raw).length
      = ((pySplitNL raw).filter (fun l => !(pyStrip l == ""))).length
    rw [List.filter_eq_self.mpr (fun a ha => by simpa using hnb a ha)]
  · simpa [extract_message_structure, segTagsSpec] using
      dedupFirst_mem (((pySplitNL raw).filter (fun l => !(pyStrip l == ""))).map
        (fun l => (pySplitOn '|' l).getD 0 "")) t

/-- C9 witness: the amended facts evaluated on a concrete three-line message
with no blank lines. -/
theorem c9_structure_statistics_witness :
    (extract_message_structure "MSH|a\nPID|b\nOBX|1").total_segments
      = specSegCount "MSH|a\nPID|b\nOBX|1" ∧
    ("MSH" ∈ (extract_message_structure "MSH|a\nPID|b\nOBX|1").segment_types ↔
      "MSH" ∈ segTagsSpec "MSH|a\nPID|b\nOBX|1") ∧
    (extract_message_structure "MSH|a\nPID|b\nOBX|1").has_patient_data = true ∧
    (extract_message_structure "MSH|a\nPID|b\nOBX|1").has_result_data = true := by
  refine ⟨(c9_structure_statistics "MSH|a\nPID|b\nOBX|1").2.1 (by decide),
    (c9_structure_statistics "MSH|a\nPID|b\nOBX|1").2.2.2.1 "MSH",
    (c9_structure_statistics "MSH|a\nPID|b\nOBX|1").2.2.2.2.1 (by decide),
    (c9_structure_statistics "MSH|a\nPID|b\nOBX|1").2.2.2.2.2.2 (by decide)⟩

/-! ### Digit/padding lemmas (for C6) -/

/-- For digits below ten, `Nat.digitChar` yields a digit character with the
original value that is not whitespace. -/
theorem digitChar_spec (n : Nat) (h : n < 10) :
    (Nat.digitChar n).isDigit = true ∧ digVal (Nat.digitChar n) = n ∧
    (Nat.digitChar n).isWhitespace = false := by
  interval_cases n <;> exact ⟨rfl, rfl, rfl⟩

/-- No character of a zero-padded two-digit rendering is whitespace. -/
theorem pad2Chars_not_ws (n : Nat) (h : n < 100) :
    ∀ c ∈ pad2Chars n, c.isWhitespace = false := by
  intro c hc
  simp only [pad2Chars, List.mem_cons, List.not_mem_nil, or_false] at hc
  rcases hc with rfl | rfl
  · exact (digitChar_spec (n / 10) (by omega)).2.2
  · exact (digitChar_spec (n % 10) (by omega)).2.2

/-- No character of a zero-padded four-digit rendering is whitespace. -/
theorem pad4Chars_not_ws (n : Nat) (h : n < 10000) :
    ∀ c ∈ pad4Chars n, c.isWhitespace = false := by
  intro c hc
  simp only [pad4Chars, List.mem_cons, List.not_mem_nil, or_false] at hc
  rcases hc with rfl | rfl | rfl | rfl
  · exact (digitChar_spec (n / 1000) (by omega)).2.2
  · exact (digitChar_spec (n / 100 % 10) (by omega)).2.2
  · exact (digitChar_spec (n / 10 % 10) (by omega)).2.2
  · exact (digitChar_spec (n % 10) (by omega)).2.2

/-- `dropTrail` keeps a list without whitespace characters intact. -/
theorem dropTrail_eq_self (l : List Char) (h : ∀ c ∈ l, c.isWhitespace = false) :
    dropTrail l = l := by
  induction l with
  | nil => rfl
  | cons c cs ih =>
    have hc : c.isWhitespace = false := h c (by simp)
    have := ih (fun x hx => h x (by simp [hx]))
    simp [dropTrail, this, hc]

/-- Stripping keeps a string without whitespace characters intact. -/
theorem stripList_eq_self (l : List Char) (h : ∀ c ∈ l, c.isWhitespace = false) :
    stripList l = l := by
  have hdw : l.dropWhile Char.isWhitespace = l := by
    cases l with
    | nil => rfl
    | cons c cs => simp [List.dropWhile, h c (by simp)]
  rw [stripList, hdw, dropTrail_eq_self l h]

/-- The head regex candidate of `%d` on a two-digit zero-padded day is the
day itself, with the remainder untouched. -/
theorem dayCands_pad2 (D : Nat) (h1 : 1 ≤ D) (h2 : D ≤ 31) (r : List Char) :
    ∃ tail, dayCands (pad2Chars D ++ r) = (D, r) :: tail := by
  interval_cases D <;> exact ⟨_, rfl⟩

/-- The head regex candidate of `%m` on a two-digit zero-padded month is the
month itself, with the remainder untouched. -/
theorem monthCands_pad2 (M : Nat) (h1 : 1 ≤ M) (h2 : M ≤ 12) (r : List Char) :
    ∃ tail, monthCands (pad2Chars M ++ r) = (M, r) :: tail := by
  interval_cases M <;> exact ⟨_, rfl⟩

/-- `%Y` consumes a four-digit zero-padded year exactly. -/
theorem take4Digits_pad4 (Y : Nat) (h : Y ≤ 9999) (r : List Char) :
    take4Digits (pad4Chars Y ++ r) = some (Y, r) := by
  have h1 := digitChar_spec (Y / 1000) (by omega)
  have h2 := digitChar_spec (Y / 100 % 10) (by omega)
  have h3 := digitChar_spec (Y / 10 % 10) (by omega)
  have h4 := digitChar_spec (Y % 10) (by omega)
  simp only [pad4Chars, List.cons_append, List.nil_append, take4Digits,
    h1.1, h2.1, h3.1, h4.1, Bool.and_self, if_pos]
  rw [h1.2.1, h2.2.1, h3.2.1, h4.2.1]
  congr 1
  refine Prod.ext ?_ rfl
  show 1000 * (Y / 1000) + 100 * (Y / 100 % 10) + 10 * (Y / 10 % 10) + Y % 10 = Y
  omega

/-- The `%d%m%Y` regex on a zero-padded `DDMMYYYY` rendering recovers the
original day, month and year and consumes the whole input. -/
theorem matchDMY_pad (D M Y : Nat) (hD1 : 1 ≤ D) (hD : D ≤ 31)
    (hM1 : 1 ≤ M) (hM : M ≤ 12) (hY : Y ≤ 9999) :
    matchDMY (pad2Chars D ++ pad2Chars M ++ pad4Chars Y) = some (D, M, Y, []) := by
  obtain ⟨t1, ht1⟩ := dayCands_pad2 D hD1 hD (pad2Chars M ++ pad4Chars Y)
  obtain ⟨t2, ht2⟩ := monthCands_pad2 M hM1 hM (pad4Chars Y)
  have hy : take4Digits (pad4Chars Y) = some (Y, []) := by
    have := take4Digits_pad4 Y hY []
    simpa using this
  rw [matchDMY, List.append_assoc, ht1]
  simp [firstSome, ht2, hy]

/-- Every month has at most 31 days. -/
theorem daysInMonth_le (y m : Nat) : daysInMonth y m ≤ 31 := by
  unfold daysInMonth
  split
  · split <;> omega
  · split <;> omega

/-- C6.  The date-field decoder is a total function (it returns an optional
value and cannot raise): the all-zero placeholder `"00000000"` decodes to
"absent" (`none`); any input whose stripped text fails the `%d%m%Y` parse
decodes to "absent" rather than a fabricated date; and every well-formed
`DDMMYYYY` string — the zero-padded rendering of a valid calendar date —
decodes to the corresponding ISO `YYYY-MM-DD` date. -/
theorem c6_date_decoder :
    (∀ s : String, pyStrip s = "00000000" → parse_date s = none) ∧
    (∀ s : String, strptimeDMY (pyStrip s) = none → parse_date s = none) ∧
    (∀ D M Y : Nat, 1 ≤ D → 1 ≤ M → M ≤ 12 → 1 ≤ Y → Y ≤ 9999 →
      D ≤ daysInMonth Y M →
      parse_date (String.mk (pad2Chars D ++ pad2Chars M ++ pad4Chars Y))
        = some (isoDate Y M D)) := by
  refine ⟨fun s h => by simp [parse_date, h], fun s h => ?_, ?_⟩
  · unfold parse_date
    split
    · rfl
    · rw [h]
  · intro D M Y hD1 hM1 hM hY1 hY hdm
    have hD : D ≤ 31 := hdm.trans (daysInMonth_le Y M)
    set l := pad2Chars D ++ pad2Chars M ++ pad4Chars Y with hl
    have hnws : ∀ c ∈ l, c.isWhitespace = false := by
      intro c hc
      rw [hl] at hc
      simp only [List.mem_append] at hc
      rcases hc with (hc | hc) | hc
      · exact pad2Chars_not_ws D (by omega) c hc
      · exact pad2Chars_not_ws M (by omega) c hc
      · exact pad4Chars_not_ws Y (by omega) c hc
    have hstrip : pyStrip (String.mk l) = String.mk l := by
      show String.mk (stripList l) = String.mk l
      rw [stripList_eq_self l hnws]
    have hne : ¬ (String.mk l = "" ∨ pyStrip (String.mk l) = "00000000") := by
      rintro (h | h)
      · have hdata : l = [] := congrArg String.data h
        rw [hl] at hdata
        simp [pad2Chars] at hdata
      · rw [hstrip] at h
        have hdata : l = ['0', '0', '0', '0', '0', '0', '0', '0'] :=
          congrArg String.data h
        rw [hl] at hdata
        simp only [pad2Chars, pad4Chars, List.cons_append, List.nil_append,
          List.cons.injEq, and_true] at hdata
        have e1 : Nat.digitChar (D / 10) = '0' := hdata.1
        have e2 : Nat.digitChar (D % 10) = '0' := hdata.2.1
        have v1 := (digitChar_spec (D / 10) (by omega)).2.1
        have v2 := (digitChar_spec (D % 10) (by omega)).2.1
        rw [e1] at v1
        rw [e2] at v2
        simp [digVal] at v1 v2
        omega
    unfold parse_date
    rw [if_neg hne, hstrip]
    have hm : strptimeDMY (String.mk l) = some (D, M, Y) := by
      unfold strptimeDMY
      have hdata : (String.mk l).data = l := rfl
      rw [hdata, hl, matchDMY_pad D M Y hD1 hD hM1 hM hY]
      simp [hY1, hdm]
    rw [hm]

/-- C6 witness: the placeholder, an unparsable value and a well-formed date,
decided concretely. -/
theorem c6_date_decoder_witness :
    parse_date "00000000" = none ∧
    parse_date "99999999" = none ∧
    parse_date (String.mk (pad2Chars 1 ++ pad2Chars 2 ++ pad4Chars 1980))
      = some (isoDate 1980 2 1) := by
  exact ⟨c6_date_decoder.1 "00000000" (by decide),
         c6_date_decoder.2.1 "99999999" (by decide),
         c6_date_decoder.2.2 1 2 1980 (by decide) (by decide) (by decide) (by decide)
           (by decide) (by decide)⟩

/-! ### Idempotence of the result upsert (for C1) -/

/-- The upsert keys of the rows of a table, in order. -/
def tableKeys (db : List TestResultRow) : List (String × String) :=
  db.map rowKey

/-- The columns of a row that the update branch of the upsert never writes:
the key pair, the generated `result_id`, the `test_order` reference and the
`result_unit`. -/
def persistOf (r : TestResultRow) :
    String × String × String × Option String × String :=
  (r.ldt_message_id, r.ldt_obx_sequence, r.result_id, r.test_order, r.result_unit)

/-- The columns the update branch writes. -/
def valueOf (r : TestResultRow) : String × ObxSeg × ObxSeg × String :=
  (r.result_value, r.ldt_raw_data, r.ldt_parsed_data, r.ldt_processing_status)

/-- The value columns both the update and the create branch derive from an
OBX segment. -/
def vOf (o : ObxSeg) : String × ObxSeg × ObxSeg × String :=
  (o.observation_value, o, o, "PROCESSED")

/-- A row is determined by its persistent and its value columns. -/
theorem row_eq_of (a b : TestResultRow) (hp : persistOf a = persistOf b)
    (hv : valueOf a = valueOf b) : a = b := by
  cases a
  cases b
  simp only [persistOf, valueOf, Prod.mk.injEq] at hp hv
  simp [hp.1, hp.2.1, hp.2.2.1, hp.2.2.2.1, hp.2.2.2.2, hv.1, hv.2.1, hv.2.2.1, hv.2.2.2]

/-- Rows with the same persistent columns share the same key. -/
theorem key_of_persist (a b : TestResultRow) (hp : persistOf a = persistOf b) :
    rowKey a = rowKey b := by
  simp only [persistOf, Prod.mk.injEq] at hp
  simp [rowKey, hp.1, hp.2.1]

/-- The first row whose key matches. -/
def lookupKey (k : String × String) : List TestResultRow → Option TestResultRow
  | [] => none
  | r :: rs => if rowKey r = k then some r else lookupKey k rs

/-- The upsert leaves the key list unchanged when the key is present and
appends it otherwise. -/
theorem tableKeys_upsert (fo : ObxSeg → Option String) (mid : String) (o : ObxSeg)
    (db : List TestResultRow) :
    (obxKey mid o ∈ tableKeys db →
      tableKeys (upsertResult fo mid o db) = tableKeys db) ∧
    (obxKey mid o ∉ tableKeys db →
      tableKeys (upsertResult fo mid o db) = tableKeys db ++ [obxKey mid o]) := by
  induction db with
  | nil =>
    refine ⟨fun h => absurd h (by simp [tableKeys]), fun _ => ?_⟩
    simp [tableKeys, upsertResult, rowKey, createRow, obxKey]
  | cons r rs ih =>
    by_cases hk : rowKey r = obxKey mid o
    · refine ⟨fun _ => ?_, fun h => absurd (List.mem_cons.mpr (Or.inl hk.symm)) h⟩
      simp only [upsertResult, if_pos hk]
      rfl
    · constructor
      · intro h
        have h2 : obxKey mid o ∈ tableKeys rs := by
          rcases List.mem_cons.mp h with h0 | h0
          · exact absurd h0.symm hk
          · exact h0
        simp only [upsertResult, if_neg hk]
        show rowKey r :: tableKeys (upsertResult fo mid o rs) = rowKey r :: tableKeys rs
        rw [ih.1 h2]
      · intro h
        have h2 : obxKey mid o ∉ tableKeys rs := fun hm => h (List.mem_cons.mpr (Or.inr hm))
        simp only [upsertResult, if_neg hk]
        show rowKey r :: tableKeys (upsertResult fo mid o rs)
          = (rowKey r :: tableKeys rs) ++ [obxKey mid o]
        rw [ih.2 h2]
        rfl

/-- The upserted key is present afterwards. -/
theorem upsert_key_mem (fo : ObxSeg → Option String) (mid : String) (o : ObxSeg)
    (db : List TestResultRow) :
    obxKey mid o ∈ tableKeys (upsertResult fo mid o db) := by
  by_cases h : obxKey mid o ∈ tableKeys db
  · rw [(tableKeys_upsert fo mid o db).1 h]; exact h
  · rw [(tableKeys_upsert fo mid o db).2 h]; simp

/-- Keys already present survive an upsert. -/
theorem upsert_key_preserved (fo : ObxSeg → Option String) (mid : String) (o : ObxSeg)
    (db : List TestResultRow) (k : String × String) (h : k ∈ tableKeys db) :
    k ∈ tableKeys (upsertResult fo mid o db) := by
  by_cases hm : obxKey mid o ∈ tableKeys db
  · rw [(tableKeys_upsert fo mid o db).1 hm]; exact h
  · rw [(tableKeys_upsert fo mid o db).2 hm]; simp [h]

/-- Keys already present survive the whole OBX loop. -/
theorem fold_key_preserved (fo : ObxSeg → Option String) (mid : String)
    (obxs : List ObxSeg) (db : List TestResultRow) (k : String × String)
    (h : k ∈ tableKeys db) :
    k ∈ tableKeys (process_result_message fo mid obxs db) := by
  induction obxs generalizing db with
  | nil => exact h
  | cons o t ih =>
    exact ih (upsertResult fo mid o db) (upsert_key_preserved fo mid o db k h)

/-- Key distinctness is preserved by an upsert. -/
theorem upsert_nodup (fo : ObxSeg → Option String) (mid : String) (o : ObxSeg)
    (db : List TestResultRow) (h : (tableKeys db).Nodup) :
    (tableKeys (upsertResult fo mid o db)).Nodup := by
  by_cases hm : obxKey mid o ∈ tableKeys db
  · rw [(tableKeys_upsert fo mid o db).1 hm]; exact h
  · rw [(tableKeys_upsert fo mid o db).2 hm]
    simp [List.nodup_append, h, List.disjoint_singleton, hm]

/-- Key distinctness is preserved by the whole OBX loop. -/
theorem fold_nodup (fo : ObxSeg → Option String) (mid : String)
    (obxs : List ObxSeg) (db : List TestResultRow) (h : (tableKeys db).Nodup) :
    (tableKeys (process_result_message fo mid obxs db)).Nodup := by
  induction obxs generalizing db with
  | nil => exact h
  | cons o t ih => exact ih (upsertResult fo mid o db) (upsert_nodup fo mid o db h)

/-- After an upsert, the row at the upserted key carries the segment's value
columns. -/
theorem upsert_lookup_value (fo : ObxSeg → Option String) (mid : String) (o : ObxSeg)
    (db : List TestResultRow) :
    ∃ r, lookupKey (obxKey mid o) (upsertResult fo mid o db) = some r ∧
      valueOf r = vOf o := by
  induction db with
  | nil =>
    refine ⟨createRow fo mid o, ?_, rfl⟩
    simp [upsertResult, lookupKey, rowKey, createRow, obxKey]
  | cons r rs ih =>
    by_cases hk : rowKey r = obxKey mid o
    · refine ⟨updateRow r o, ?_, rfl⟩
      simp only [upsertResult, if_pos hk, lookupKey]
      rw [if_pos (show rowKey (updateRow r o) = obxKey mid o from hk)]
    · obtain ⟨r2, hr2, hv⟩ := ih
      refine ⟨r2, ?_, hv⟩
      simp only [upsertResult, if_neg hk, lookupKey]
      exact hr2

/-- An upsert leaves the rows at every other key untouched. -/
theorem upsert_lookup_other (fo : ObxSeg → Option String) (mid : String) (o : ObxSeg)
    (db : List TestResultRow) (k : String × String) (hk : k ≠ obxKey mid o) :
    lookupKey k (upsertResult fo mid o db) = lookupKey k db := by
  induction db with
  | nil =>
    simp only [upsertResult, lookupKey]
    rw [if_neg (show ¬ rowKey (createRow fo mid o) = k from fun h => hk h.symm)]
  | cons r rs ih =>
    by_cases hr : rowKey r = obxKey mid o
    · have hne : ¬ rowKey r = k := fun h => hk (h.symm.trans hr)
      simp only [upsertResult, if_pos hr, lookupKey]
      rw [if_neg (show ¬ rowKey (updateRow r o) = k from hne), if_neg hne]
    · simp only [upsertResult, if_neg hr, lookupKey]
      by_cases hrk : rowKey r = k
      · rw [if_pos hrk, if_pos hrk]
      · rw [if_neg hrk, if_neg hrk]
        exact ih

/-- The OBX loop leaves the rows at keys it never touches untouched. -/
theorem fold_lookup_other (fo : ObxSeg → Option String) (mid : String)
    (obxs : List ObxSeg) (db : List TestResultRow) (k : String × String)
    (h : ∀ o ∈ obxs, obxKey mid o ≠ k) :
    lookupKey k (process_result_message fo mid obxs db) = lookupKey k db := by
  induction obxs generalizing db with
  | nil => rfl
  | cons o t ih =>
    have := upsert_lookup_other fo mid o db k (fun he => h o (by simp) he.symm)
    calc lookupKey k (process_result_message fo mid t (upsertResult fo mid o db))
        = lookupKey k (upsertResult fo mid o db) :=
          ih (upsertResult fo mid o db) (fun x hx => h x (by simp [hx]))
      _ = lookupKey k db := this

/-- Upserting a segment whose value columns already sit at its key is the
identity. -/
theorem upsert_fixpoint (fo : ObxSeg → Option String) (mid : String) (o : ObxSeg)
    (db : List TestResultRow) (r : TestResultRow)
    (hl : lookupKey (obxKey mid o) db = some r) (hv : valueOf r = vOf o) :
    upsertResult fo mid o db = db := by
  induction db with
  | nil => simp [lookupKey] at hl
  | cons a rs ih =>
    by_cases hk : rowKey a = obxKey mid o
    · simp only [lookupKey, if_pos hk] at hl
      injection hl with hl
      simp only [upsertResult, if_pos hk]
      have hva : valueOf a = vOf o := by rw [hl, hv]
      have hupd : updateRow a o = a := row_eq_of (updateRow a o) a rfl hva.symm
      rw [hupd]
    · simp only [lookupKey, if_neg hk] at hl
      simp only [upsertResult, if_neg hk]
      rw [ih hl]

/-- The keys hit by a list of OBX segments of message `mid`. -/
def hitKeys (mid : String) (obxs : List ObxSeg) : List (String × String) :=
  obxs.map (obxKey mid)

/-- Row-wise relation between two tables: equal persistent columns
everywhere, and rows may differ (in their value columns) only where the row
key is among `hits` — the keys a remaining OBX run will overwrite. -/
def RelV (hits : List (String × String)) : List TestResultRow → List TestResultRow → Prop
  | [], [] => True
  | a :: as, b :: bs =>
    (persistOf a = persistOf b ∧ (a = b ∨ rowKey a ∈ hits)) ∧ RelV hits as bs
  | _, _ => False

/-- `RelV` is reflexive. -/
theorem RelV_refl (hits : List (String × String)) (db : List TestResultRow) :
    RelV hits db db := by
  induction db with
  | nil => trivial
  | cons r rs ih => exact ⟨⟨rfl, Or.inl rfl⟩, ih⟩

/-- With no hit keys left, related tables are equal. -/
theorem RelV_nil (u v : List TestResultRow) (h : RelV [] u v) : u = v := by
  induction u generalizing v with
  | nil => cases v with
    | nil => rfl
    | cons b bs => exact absurd h (by simp [RelV])
  | cons a as ih =>
    cases v with
    | nil => exact absurd h (by simp [RelV])
    | cons b bs =>
      obtain ⟨⟨_, hab⟩, htail⟩ := h
      rcases hab with hab | hab
      · rw [hab, ih bs htail]
      · exact absurd hab (List.not_mem_nil _)

/-- A hit key that does not occur in the table can be dropped. -/
theorem RelV_transfer (k : String × String) (hs : List (String × String))
    (u v : List TestResultRow) (h : RelV (k :: hs) u v) (hk : k ∉ tableKeys u) :
    RelV hs u v := by
  induction u generalizing v with
  | nil => cases v with
    | nil => trivial
    | cons b bs => exact absurd h (by simp [RelV])
  | cons a as ih =>
    cases v with
    | nil => exact absurd h (by simp [RelV])
    | cons b bs =>
      obtain ⟨⟨hp, hab⟩, htail⟩ := h
      have hka : rowKey a ≠ k := fun he => hk (by simp [tableKeys, he.symm])
      have hkas : k ∉ tableKeys as := fun hm => hk (List.mem_cons.mpr (Or.inr hm))
      refine ⟨⟨hp, ?_⟩, ih bs htail hkas⟩
      rcases hab with hab | hab
      · exact Or.inl hab
      · rcases List.mem_cons.mp hab with he | he
        · exact absurd he hka
        · exact Or.inr he

/-- Updating the row at a key that remains to be hit keeps the tables
related. -/
theorem RelV_update (fo : ObxSeg → Option String) (mid : String) (o : ObxSeg)
    (hits : List (String × String)) (u : List TestResultRow)
    (hh : obxKey mid o ∈ hits) (hm : obxKey mid o ∈ tableKeys u) :
    RelV hits (upsertResult fo mid o u) u := by
  induction u with
  | nil => exact absurd hm (by simp [tableKeys])
  | cons r rs ih =>
    by_cases hk : rowKey r = obxKey mid o
    · simp only [upsertResult, if_pos hk]
      refine ⟨⟨rfl, Or.inr ?_⟩, RelV_refl hits rs⟩
      show rowKey r ∈ hits
      rw [hk]
      exact hh
    · have hm2 : obxKey mid o ∈ tableKeys rs := by
        rcases List.mem_cons.mp hm with h0 | h0
        · exact absurd h0.symm hk
        · exact h0
      simp only [upsertResult, if_neg hk]
      exact ⟨⟨rfl, Or.inl rfl⟩, ih hm2⟩

/-- One upsert step preserves the relation, shrinking the hit list by the
upserted key (key distinctness of the left table rules out a second,
untouched row with the upserted key). -/
theorem RelV_step (fo : ObxSeg → Option String) (mid : String) (o : ObxSeg)
    (hs : List (String × String)) (u v : List TestResultRow)
    (hnd : (tableKeys u).Nodup) (h : RelV (obxKey mid o :: hs) u v) :
    RelV hs (upsertResult fo mid o u) (upsertResult fo mid o v) := by
  induction u generalizing v with
  | nil =>
    cases v with
    | nil => exact ⟨⟨rfl, Or.inl rfl⟩, trivial⟩
    | cons b bs => exact absurd h (by simp [RelV])
  | cons a as ih =>
    cases v with
    | nil => exact absurd h (by simp [RelV])
    | cons b bs =>
      obtain ⟨⟨hp, hab⟩, htail⟩ := h
      have hkey : rowKey b = rowKey a := (key_of_persist a b hp).symm
      have hndas : (tableKeys as).Nodup := (List.nodup_cons.mp hnd).2
      have hnotin : rowKey a ∉ tableKeys as := (List.nodup_cons.mp hnd).1
      by_cases hka : rowKey a = obxKey mid o
      · simp only [upsertResult, if_pos hka, if_pos (hkey.trans hka)]
        have hhead : updateRow a o = updateRow b o :=
          row_eq_of (updateRow a o) (updateRow b o)
            (show persistOf a = persistOf b from hp) rfl
        refine ⟨⟨show persistOf a = persistOf b from hp, Or.inl hhead⟩, ?_⟩
        exact RelV_transfer (obxKey mid o) hs as bs htail (hka ▸ hnotin)
      · simp only [upsertResult, if_neg hka, if_neg (fun he => hka (hkey.symm.trans he))]
        refine ⟨⟨hp, ?_⟩, ih bs hndas htail⟩
        rcases hab with hab | hab
        · exact Or.inl hab
        · rcases List.mem_cons.mp hab with he | he
          · exact absurd he hka
          · exact Or.inr he

/-- The OBX loop is a single fold step followed by the rest. -/
theorem process_cons (fo : ObxSeg → Option String) (mid : String) (o : ObxSeg)
    (t : List ObxSeg) (db : List TestResultRow) :
    process_result_message fo mid (o :: t) db
      = process_result_message fo mid t (upsertResult fo mid o db) := rfl

/-- Running the loop erases every difference that sits at a key the loop
still hits: related tables end equal. -/
theorem process_erases (fo : ObxSeg → Option String) (mid : String)
    (obxs : List ObxSeg) (u v : List TestResultRow)
    (hnd : (tableKeys u).Nodup) (h : RelV (hitKeys mid obxs) u v) :
    process_result_message fo mid obxs u = process_result_message fo mid obxs v := by
  induction obxs generalizing u v with
  | nil => exact RelV_nil u v h
  | cons o t ih =>
    rw [process_cons, process_cons]
    exact ih (upsertResult fo mid o u) (upsertResult fo mid o v)
      (upsert_nodup fo mid o u hnd) (RelV_step fo mid o (hitKeys mid t) u v hnd h)

/-- C1 core: on a table with distinct upsert keys, running the OBX upsert
loop twice gives the same table as running it once — no duplicate rows are
created and every row keeps identical values. -/
theorem process_result_message_idem (fo : ObxSeg → Option String) (mid : String)
    (obxs : List ObxSeg) (db : List TestResultRow) (hnd : (tableKeys db).Nodup) :
    process_result_message fo mid obxs (process_result_message fo mid obxs db)
      = process_result_message fo mid obxs db := by
  induction obxs generalizing db with
  | nil => rfl
  | cons x t ih =>
    rw [process_cons]
    rw [process_cons fo mid x t db]
    have hnd1 : (tableKeys (upsertResult fo mid x db)).Nodup := upsert_nodup fo mid x db hnd
    have ih1 := ih (upsertResult fo mid x db) hnd1
    have hndu : (tableKeys (process_result_message fo mid t
        (upsertResult fo mid x db))).Nodup := fold_nodup fo mid t _ hnd1
    by_cases hmem : obxKey mid x ∈ hitKeys mid t
    · have hku : obxKey mid x
          ∈ tableKeys (process_result_message fo mid t (upsertResult fo mid x db)) :=
        fold_key_preserved fo mid t _ _ (upsert_key_mem fo mid x db)
      have hrel := RelV_update fo mid x (hitKeys mid t) _ hmem hku
      rw [process_erases fo mid t _ _ (upsert_nodup fo mid x _ hndu) hrel]
      exact ih1
    · have hall : ∀ o ∈ t, obxKey mid o ≠ obxKey mid x := by
        intro o ho he
        exact hmem (List.mem_map.mpr ⟨o, ho, he⟩)
      obtain ⟨r, hrl, hrv⟩ := upsert_lookup_value fo mid x db
      have hlu : lookupKey (obxKey mid x)
          (process_result_message fo mid t (upsertResult fo mid x db)) = some r := by
        rw [fold_lookup_other fo mid t _ _ hall]
        exact hrl
      rw [upsert_fixpoint fo mid x _ r hlu hrv]
      exact ih1

/-- C1.  Reprocessing a Result-typed message with unchanged raw content is an
idempotent upsert keyed by (message id, OBX set-id): given a result table
whose upsert keys are pairwise distinct (the uniqueness invariant of the
(message id, sequence) pair), running `process_message` a second time on the
message produced by the first run leaves the result table exactly as the
first run left it — no duplicate row is created and the row at each key keeps
identical field values, its value and raw-payload columns set from the
segment. -/
theorem c1_reprocessing_idempotent (findOrder : ObxSeg → Option String)
    (now1 dur1 now2 dur2 : String) (msg : MsgRow) (db : List TestResultRow)
    (hnd : (tableKeys db).Nodup) (hty : msg.message_type = "RESULT") :
    (process_message findOrder now2 dur2
        (process_message findOrder now1 dur1 msg db).1
        (process_message findOrder now1 dur1 msg db).2.1).2.1
      = (process_message findOrder now1 dur1 msg db).2.1 := by
  show (if msg.message_type = "RESULT" then
          process_result_message findOrder msg.message_id
            (parse_ldt_message msg.raw_message).obx
            (if msg.message_type = "RESULT" then
              process_result_message findOrder msg.message_id
                (parse_ldt_message msg.raw_message).obx db
            else db)
        else
          (if msg.message_type = "RESULT" then
            process_result_message findOrder msg.message_id
              (parse_ldt_message msg.raw_message).obx db
          else db))
      = (if msg.message_type = "RESULT" then
          process_result_message findOrder msg.message_id
            (parse_ldt_message msg.raw_message).obx db
        else db)
  simp only [if_pos hty]
  exact process_result_message_idem findOrder msg.message_id
    (parse_ldt_message msg.raw_message).obx db hnd

/-- C1 witness: a concrete Result message with one OBX segment, reprocessed
from an empty table. -/
theorem c1_reprocessing_idempotent_witness :
    (process_message (fun _ => none) "t2" "d2"
        (process_message (fun _ => none) "t1" "d1"
          ⟨"m1", "MSG001", "RESULT", "RECEIVED",
            "OBX|1|NM|GLU^GLU|1|120|mg/dL|70-110|H|F|||20231201120000",
            none, none, "", 0, 3, none, none⟩ []).1
        (process_message (fun _ => none) "t1" "d1"
          ⟨"m1", "MSG001", "RESULT", "RECEIVED",
            "OBX|1|NM|GLU^GLU|1|120|mg/dL|70-110|H|F|||20231201120000",
            none, none, "", 0, 3, none, none⟩ []).2.1).2.1
      = (process_message (fun _ => none) "t1" "d1"
          ⟨"m1", "MSG001", "RESULT", "RECEIVED",
            "OBX|1|NM|GLU^GLU|1|120|mg/dL|70-110|H|F|||20231201120000",
            none, none, "", 0, 3, none, none⟩ []).2.1 := by
  exact c1_reprocessing_idempotent (fun _ => none) "t1" "d1" "t2" "d2"
    ⟨"m1", "MSG001", "RESULT", "RECEIVED",
      "OBX|1|NM|GLU^GLU|1|120|mg/dL|70-110|H|F|||20231201120000",
      none, none, "", 0, 3, none, none⟩ [] (by decide) (by decide)
